import Mathlib

/-!
Verification development for the conversational-marketplace backend
(`backend/app`): shallow Lean embeddings of the orchestration core
(tool registry, session store, state machine, conversation loop,
entity resolver, pricing recommendation) together with theorems that
settle the specification claims against the code.

Conventions of the embedding:
* Python dict-shaped values are modelled by the small inductive `PyVal`.
* Calendar dates and datetimes are modelled as integers (day numbers);
  `today` is threaded explicitly wherever the source calls `date.today()`.
* Python floats on money/quantity paths are modelled as exact rationals.
* Exceptions are modelled with `Except String`, the string carrying the
  exception text (`str(e)`).
* Async functions are modelled as pure functions with explicit state
  passing; the session store (redis) is a function `String → Option Session`.
-/

/-- Python-style opaque value used for `data` payloads of tool results. -/
inductive PyVal where
  | pnone : PyVal
  | pbool : Bool → PyVal
  | pstr : String → PyVal
  | pnum : ℚ → PyVal
  | plist : List PyVal → PyVal
  | pdict : List (String × PyVal) → PyVal
deriving Repr

/-- Lookup in a Python-dict value, i.e. `d.get(key)`. -/
def PyVal.dictGet : PyVal → String → Option PyVal
  | .pdict l, k => (l.find? (fun p => p.1 = k)).map Prod.snd
  | _, _ => none

/-- Python `str.strip()` on the character-list view (whitespace at both
ends), kept kernel-computable. -/
def pyStrip (s : String) : String :=
  ⟨((s.data.dropWhile Char.isWhitespace).reverse.dropWhile Char.isWhitespace).reverse⟩

/-- Python `str.lower()` on the character-list view, kept
kernel-computable. -/
def pyLower (s : String) : String :=
  ⟨s.data.map Char.toLower⟩

/-! ## ToolResult (backend/app/orchestrator/tool_registry.py, class ToolResult)

Structured tool result: `{success: bool, data: any, message: str}`. -/

structure ToolResult where
  success : Bool
  data : PyVal
  message : String
deriving Repr

/-- `ToolResult.ok(data, message)` from the source. -/
def ToolResult.ok (data : PyVal := .pnone) (message : String := "") : ToolResult :=
  { success := true, data := data, message := message }

/-- `ToolResult.fail(message, data)` from the source. -/
def ToolResult.fail (message : String) (data : PyVal := .pnone) : ToolResult :=
  { success := false, data := data, message := message }

/-! ## ToolRegistry.execute (tool_registry.py lines 53–66)

A handler is an async method that can read/mutate external state (DB,
session store) and either return a `ToolResult` or raise.  We model a
handler over an abstract state `σ` as `args → σ → (Except exnText ToolResult) × σ`:
side effects performed before an exception persist, which matches Python.
The registry's handler table `self._handlers` is modelled as a partial
map from tool names to handlers (`dict.get`).  The `settings.TRACE_TOOLS`
branches in the source only emit log lines and are elided. -/

def Handler (σ : Type) := PyVal → σ → (Except String ToolResult) × σ

/-- Embedding of `ToolRegistry.execute`: unknown names yield a failed
result naming the tool; a handler exception is converted into a
`success=false` envelope `f"{name} failed: {e}"`. -/
def ToolRegistry.execute {σ : Type} (handlers : String → Option (Handler σ))
    (name : String) (args : PyVal) (st : σ) : ToolResult × σ :=
  match handlers name with
  | none => (ToolResult.fail ("Unknown tool: " ++ name), st)
  | some h =>
    match h args st with
    | (.ok res, st') => (res, st')
    | (.error e, st') => (ToolResult.fail (name ++ " failed: " ++ e), st')

/-! ## State machine (backend/app/models/state_machine.py) -/

namespace States

def IDLE : String := "idle"
def REGISTERING : String := "registering"
def ORDERING : String := "ordering"
def CONFIRMING_ORDER : String := "confirming_order"
def ADDING_INVENTORY : String := "adding_inventory"
def CONFIRMING_INVENTORY : String := "confirming_inventory"
def QUERYING : String := "querying"

end States

/-- The `self._transitions` dict built in `StateMachine.__post_init__`,
including the `.get(self.state, set())` default of an empty set. -/
def StateMachine.transitionsOf (state : String) : List String :=
  if state = States.IDLE then
    [States.REGISTERING, States.ORDERING, States.ADDING_INVENTORY, States.QUERYING]
  else if state = States.REGISTERING then
    [States.IDLE, States.ORDERING, States.ADDING_INVENTORY, States.QUERYING]
  else if state = States.ORDERING then [States.CONFIRMING_ORDER, States.IDLE]
  else if state = States.CONFIRMING_ORDER then [States.IDLE]
  else if state = States.ADDING_INVENTORY then [States.CONFIRMING_INVENTORY, States.IDLE]
  else if state = States.CONFIRMING_INVENTORY then [States.IDLE]
  else if state = States.QUERYING then [States.IDLE]
  else []

/-- `StateMachine.can_transition`: membership of the target in the
current state's allowed-target set. -/
def StateMachine.can_transition (state to_state : String) : Bool :=
  (StateMachine.transitionsOf state).contains to_state

/-- `StateMachine.transition`: returns the new state, or raises
`ValueError(f"Invalid transition: {self.state} -> {to_state}")`.  The
`Except` error models the raised exception; on error the object's
`state` attribute is left untouched by the source. -/
def StateMachine.transition (state to_state : String) : Except String String :=
  if StateMachine.can_transition state to_state then .ok to_state
  else .error ("Invalid transition: " ++ state ++ " -> " ++ to_state)

/-! ## Session store (backend/app/orchestrator/session_manager.py) -/

/-- One conversation-history entry, `{"role": .., "content": .., "timestamp": ..}`. -/
structure HistMsg where
  role : String
  content : String
  timestamp : Nat
deriving Repr, DecidableEq

/-- Session context dict as written by `create_session`. -/
structure SessionCtx where
  current_flow : Option String := some "idle"
  pending_order : PyVal := .pnone
  pending_inventory : PyVal := .pnone
  last_intent : Option String := none
  awaiting_confirmation : Bool := false
deriving Repr

/-- Stored session record (the JSON blob under `session:{id}`).  The
`created_at`/`last_active` wall-clock strings are not modelled.  A field
read from a missing key via `.get` in the source corresponds to the
default value here. -/
structure Session where
  session_id : String := ""
  user_id : Option String := none
  user_type : String := "unknown"
  registered : Bool := false
  phone : Option String := none
  name : Option String := none
  default_location : Option String := none
  context : SessionCtx := {}
  conversation_history : List HistMsg := []
  language : String := "auto"

/-- Python's truthiness for the partial record `data = await get_session(..) or {}`;
a bare `{}` reads every field at its `.get` default, which coincides with
the structure defaults above. -/
def Session.partialEmpty : Session := {}

/-- The redis keyspace: absence models both never-created and expired. -/
def Store := String → Option Session

/-- `SessionManager.get_session`: returns the record or None; the TTL
refresh side effect carries no information in this model. -/
def SessionManager.get_session (st : Store) (session_id : String) : Option Session :=
  st session_id

/-- Functional update of the keyspace. -/
def Store.put (st : Store) (session_id : String) (s : Session) : Store :=
  fun k => if k = session_id then some s else st k

/-- `SessionManager.create_session`: allocates a fresh uuid4 identifier
(passed in as `freshId`, drawn outside the model) and writes the initial
record; returns the new id. -/
def SessionManager.create_session (st : Store) (freshId : String) : String × Store :=
  let data : Session :=
    { session_id := freshId
      user_id := none
      user_type := "unknown"
      registered := false
      phone := none
      name := none
      default_location := none
      context := { current_flow := some "idle", pending_order := .pnone,
                   pending_inventory := .pnone, last_intent := none,
                   awaiting_confirmation := false }
      conversation_history := []
      language := "auto" }
  (freshId, st.put freshId data)

/-- Python list slice `xs[-n:]` for nonnegative `n` (note `xs[-0:]` is the
whole list). -/
def pySliceLast {α : Type} (n : Nat) (xs : List α) : List α :=
  if n = 0 then xs else xs.drop (xs.length - n)

/-- The history append-and-trim core of `SessionManager.add_message`:
append the turn, then `hist = hist[-max_history:]` whenever the length
exceeds `max_history`. -/
def SessionManager.trimAppend (max_history : Nat) (hist : List HistMsg) (m : HistMsg) :
    List HistMsg :=
  let hist := hist ++ [m]
  if max_history < hist.length then pySliceLast max_history hist else hist

/-- `SessionManager.add_message`: reads the record (`or {}` when absent),
appends `{role, content, timestamp}`, trims to the configured maximum,
writes back.  `now` stands for `time.time()`. -/
def SessionManager.add_message (max_history : Nat) (st : Store) (session_id : String)
    (role content : String) (now : Nat) : Store :=
  let data := (SessionManager.get_session st session_id).getD Session.partialEmpty
  let hist := SessionManager.trimAppend max_history data.conversation_history
    { role := role, content := content, timestamp := now }
  st.put session_id { data with conversation_history := hist }

/-! ## difflib.SequenceMatcher (CPython), as used by
`DatabaseService.fuzzy_get_product_by_name` (db_service.py lines 86–110)

The resolver computes `SequenceMatcher(None, target, cand).ratio()`.
`isjunk` is `None`, so `bjunk` is empty and the two junk-extension loops
of `find_longest_match` (guarded by `isbjunk(...)`) never fire; they are
therefore omitted.  The autojunk purge of popular elements (`len(b) >= 200`)
is embedded.  Strings are lists of characters; `j2len.get(j-1, 0)` for
`j = 0` looks up key `-1`, which is never present, hence the `j = 0`
guard below. -/

namespace SeqM

/-- `(besti, bestj, bestsize)`. -/
def Best := Nat × Nat × Nat

/-- Ascending indices of occurrences of `c` in `b` (the raw `b2j` entry). -/
def occurrences (b : List Char) (c : Char) : List Nat :=
  (List.range b.length).filter fun j => b.getD j (Char.ofNat 0) == c

/-- The `b2j` table after the autojunk purge of popular elements
(`autojunk and n >= 200`, drop entries longer than `n // 100 + 1`). -/
def b2j (b : List Char) (c : Char) : List Nat :=
  let idxs := occurrences b c
  if 200 ≤ b.length ∧ b.length / 100 + 1 < idxs.length then [] else idxs

/-- Inner loop of `find_longest_match` over `b2j.get(a[i], [])`:
`j < blo` is `continue`, `j >= bhi` is `break` (indices ascend), and a
strictly larger run updates the best block. -/
def innerLoop (i blo bhi : Nat) (j2len : Nat → Nat) :
    List Nat → (Nat → Nat) → (Nat × Nat × Nat) → ((Nat → Nat) × (Nat × Nat × Nat))
  | [], newj2len, best => (newj2len, best)
  | j :: js, newj2len, best =>
    if j < blo then innerLoop i blo bhi j2len js newj2len best
    else if bhi ≤ j then (newj2len, best)
    else
      let k := (if j = 0 then 0 else j2len (j - 1)) + 1
      let newj2len' : Nat → Nat := fun x => if x = j then k else newj2len x
      if best.2.2 < k then
        innerLoop i blo bhi j2len js newj2len' (i + 1 - k, j + 1 - k, k)
      else innerLoop i blo bhi j2len js newj2len' best

/-- Outer loop `for i in range(alo, ahi)` of `find_longest_match`,
threading `j2len` from row to row; `rows` is instantiated with
`List.range' alo (ahi - alo)`. -/
def outerLoop (a b : List Char) (blo bhi : Nat) :
    List Nat → (Nat → Nat) → (Nat × Nat × Nat) → Nat × Nat × Nat
  | [], _, best => best
  | i :: rest, j2len, best =>
    let step := innerLoop i blo bhi j2len (b2j b (a.getD i (Char.ofNat 0)))
      (fun _ => 0) best
    outerLoop a b blo bhi rest step.1 step.2

/-- First extension loop: extend the best block downwards while preceding
elements match (`isbjunk` is constantly false here).  Structural
recursion on `besti`, which the loop decrements while `besti > alo ≥ 0`. -/
def extendLo (a b : List Char) (alo blo : Nat) : Nat → Nat → Nat → Nat × Nat × Nat
  | 0, bj, bs => (0, bj, bs)
  | bi + 1, bj, bs =>
    if alo < bi + 1 ∧ blo < bj ∧
        a.getD bi (Char.ofNat 0) = b.getD (bj - 1) (Char.ofNat 0) then
      extendLo a b alo blo bi (bj - 1) (bs + 1)
    else (bi + 1, bj, bs)

/-- Second extension loop: extend the best block upwards while following
elements match.  `fuel` is instantiated with `ahi - (bi + bs)`, which is
zero exactly when the loop guard `besti+bestsize < ahi` is false and
otherwise decreases in lockstep with the guard. -/
def extendHi (a b : List Char) (ahi bhi bi bj : Nat) : Nat → Nat → Nat × Nat × Nat
  | 0, bs => (bi, bj, bs)
  | fuel + 1, bs =>
    if bi + bs < ahi ∧ bj + bs < bhi ∧
        a.getD (bi + bs) (Char.ofNat 0) = b.getD (bj + bs) (Char.ofNat 0) then
      extendHi a b ahi bhi bi bj fuel (bs + 1)
    else (bi, bj, bs)

/-- `SequenceMatcher.find_longest_match(alo, ahi, blo, bhi)` with
`isjunk = None`. -/
def find_longest_match (a b : List Char) (alo ahi blo bhi : Nat) : Nat × Nat × Nat :=
  let best := outerLoop a b blo bhi (List.range' alo (ahi - alo)) (fun _ => 0) (alo, blo, 0)
  let best := extendLo a b alo blo best.1 best.2.1 best.2.2
  extendHi a b ahi bhi best.1 best.2.1 (ahi - (best.1 + best.2.2)) best.2.2

/-- Total size of the matching blocks of `get_matching_blocks` restricted
to the window `a[alo:ahi] × b[blo:bhi]` (the queue in the source explores
exactly these independent subwindows; only the sum of block sizes matters
for `ratio`, and the final sort/coalesce pass does not change it).  The
`fuel` argument bounds the recursion depth: the measure
`(ahi - alo) + (bhi - blo)` strictly decreases at each recursive call
(`matchSumF_fuel_irrelevant` below), so the initial fuel `la + lb` used by
`ratio` is never exhausted. -/
def matchSumF (a b : List Char) : Nat → Nat → Nat → Nat → Nat → Nat
  | 0, _, _, _, _ => 0
  | fuel + 1, alo, ahi, blo, bhi =>
    let m := find_longest_match a b alo ahi blo bhi
    if m.2.2 = 0 then 0
    else
      (if alo < m.1 ∧ blo < m.2.1 then matchSumF a b fuel alo m.1 blo m.2.1 else 0) +
      m.2.2 +
      (if m.1 + m.2.2 < ahi ∧ m.2.1 + m.2.2 < bhi then
        matchSumF a b fuel (m.1 + m.2.2) ahi (m.2.1 + m.2.2) bhi else 0)

/-- `SequenceMatcher(None, a, b).ratio()`: `2.0 * M / T` where `M` is the
number of matched elements and `T = len(a) + len(b)`; `1.0` when both are
empty (`_calculate_ratio`). -/
def ratioOf (a b : List Char) : ℚ :=
  let matchCount := matchSumF a b (a.length + b.length) 0 a.length 0 b.length
  if a.length + b.length = 0 then 1
  else (2 * matchCount : ℚ) / ((a.length : ℚ) + (b.length : ℚ))

/-- Window discipline of a candidate best block: either it is still the
initial `(alo, blo, 0)` or it is a nonempty block lying inside
`[alo, ahi) × [blo, bhi)`. -/
def BestInv (alo ahi blo bhi : Nat) (m : Nat × Nat × Nat) : Prop :=
  (m.1 = alo ∧ m.2.1 = blo ∧ m.2.2 = 0) ∨
    (1 ≤ m.2.2 ∧ alo ≤ m.1 ∧ blo ≤ m.2.1 ∧ m.1 + m.2.2 ≤ ahi ∧ m.2.1 + m.2.2 ≤ bhi)

/-- Window discipline of the `j2len` row map before processing row
`iNext`: every recorded run ends inside `[blo, bhi)` and is no longer
than its distance to either window edge. -/
def J2Inv (alo blo bhi iNext : Nat) (f : Nat → Nat) : Prop :=
  ∀ j, f j ≠ 0 → blo ≤ j ∧ j < bhi ∧ f j + blo ≤ j + 1 ∧ f j + alo ≤ iNext

end SeqM

/-- The similarity score computed by the Entity Resolver between two
strings: `SequenceMatcher(None, x, y).ratio()`. -/
def similarityScore (x y : String) : ℚ := SeqM.ratioOf x.toList y.toList

/-! ## Relational store (backend/app/models/orm.py, backend/app/services/db_service.py)

Tables as lists of rows, in the order the corresponding SELECTs return
them (`products` in `ORDER BY product_name` order).  Dates and datetimes
are day numbers (`date.today()` is `db.today`); SQL `AVG` over an empty
selection is NULL, modelled as `none`. -/

structure Product where
  product_id : Nat
  product_name : String
deriving Repr, DecidableEq

structure InventoryRow where
  inventory_id : Nat
  supplier_id : String
  product_id : Nat
  quantity_kg : ℚ
  price_per_unit : ℚ
  available_date : Int
  expiry_date : Option Int
  status : String
deriving Repr, DecidableEq

structure OrderRow where
  order_id : String
  customer_id : String
  delivery_date : Int
  delivery_location : String
  total_amount : ℚ
  status : String
deriving Repr, DecidableEq

structure OrderItemRow where
  order_id : String
  product_id : Nat
  quantity_kg : ℚ
  price_per_unit : ℚ
deriving Repr, DecidableEq

structure CompetitorRow where
  product_id : Nat
  price : ℚ
  source_market_type : String
  date : Int
deriving Repr, DecidableEq

structure TransactionRow where
  product_id : Nat
  price_per_unit : ℚ
  order_date : Int
deriving Repr, DecidableEq

structure DB where
  products : List Product
  inventory : List InventoryRow
  orders : List OrderRow
  order_items : List OrderItemRow
  competitor_pricing : List CompetitorRow
  transaction_history : List TransactionRow
  today : Int
deriving Repr, DecidableEq

/-- `DatabaseService.get_all_products` (catalog in `ORDER BY product_name`
order, by the modelling convention on `DB.products`). -/
def DatabaseService.get_all_products (db : DB) : List Product :=
  db.products

/-- `DatabaseService.get_product_by_name`: case-insensitive equality on
the canonical name (`scalar_one_or_none` on a unique-name catalog). -/
def DatabaseService.get_product_by_name (db : DB) (name : String) : Option Product :=
  db.products.find? (fun p => pyLower p.product_name = pyLower name)

/-- The scan of `fuzzy_get_product_by_name` over the catalog: keep the
strictly best-scoring product (first wins on ties). -/
def fuzzyBest (target : String) : List Product → Option Product × ℚ → Option Product × ℚ
  | [], acc => acc
  | p :: ps, acc =>
    let cand := pyLower (pyStrip p.product_name)
    if cand = "" then fuzzyBest target ps acc
    else
      let score := SeqM.ratioOf target.toList cand.toList
      if acc.2 < score then fuzzyBest target ps (some p, score)
      else fuzzyBest target ps acc

/-- `DatabaseService.fuzzy_get_product_by_name(name, threshold)`
(db_service.py lines 86–110): exact scan with `SequenceMatcher` scores;
accept the best candidate only when its score meets the threshold. -/
def DatabaseService.fuzzy_get_product_by_name (db : DB) (name : String)
    (threshold : ℚ) : Option Product × ℚ :=
  let target := pyLower (pyStrip name)
  if target = "" then (none, 0)
  else
    let best := fuzzyBest target (DatabaseService.get_all_products db) (none, 0)
    if threshold ≤ best.2 then best else (none, best.2)

/-- `DatabaseService.get_available_inventory`: active rows of the product
already available today. -/
def DatabaseService.get_available_inventory (db : DB) (product_id : Nat) :
    List InventoryRow :=
  db.inventory.filter (fun i =>
    decide (i.product_id = product_id ∧ i.status = "active" ∧
      i.available_date ≤ db.today))

/-- `DatabaseService.check_expiring_inventory(supplier_id, days_threshold)`:
active rows of the given supplier with an expiry date on or before
`today + days_threshold`, joined with the product name. -/
def DatabaseService.check_expiring_inventory (db : DB) (supplier_id : String)
    (days_threshold : Int) : List (InventoryRow × String) :=
  let cutoff := db.today + days_threshold
  db.inventory.filterMap (fun i =>
    if decide (i.supplier_id = supplier_id) && decide (i.status = "active") &&
        (match i.expiry_date with
         | some e => decide (e ≤ cutoff)
         | none => false) then
      (db.products.find? (fun p => p.product_id = i.product_id)).map
        (fun p => (i, p.product_name))
    else none)

/-! ## Pricing queries and recommendation (db_service.py lines 395–491) -/

/-- SQL `AVG` of a selection: NULL on the empty set. -/
def listAvg (l : List ℚ) : Option ℚ :=
  if l = [] then none else some (l.sum / l.length)

/-- `DatabaseService.get_average_competitor_price(product_id, market_type,
days_back)`: average price over rows of the product and market tier dated
within the trailing window. -/
def DatabaseService.get_average_competitor_price (db : DB) (product_id : Nat)
    (market_type : String) (days_back : Int) : Option ℚ :=
  listAvg ((db.competitor_pricing.filter (fun r =>
    decide (r.product_id = product_id ∧ r.source_market_type = market_type ∧
      db.today - days_back ≤ r.date))).map (fun r => r.price))

/-- `DatabaseService.get_average_competitor_price_anytime`: same without
the date restriction. -/
def DatabaseService.get_average_competitor_price_anytime (db : DB)
    (product_id : Nat) (market_type : String) : Option ℚ :=
  listAvg ((db.competitor_pricing.filter (fun r =>
    decide (r.product_id = product_id ∧ r.source_market_type = market_type))).map
    (fun r => r.price))

/-- `DatabaseService.get_historical_transaction_prices(product_id,
days_back=60)`: average transaction price over the trailing 60 days. -/
def DatabaseService.get_historical_transaction_prices (db : DB)
    (product_id : Nat) (days_back : Int := 60) : Option ℚ :=
  listAvg ((db.transaction_history.filter (fun t =>
    decide (t.product_id = product_id ∧ db.today - days_back ≤ t.order_date))).map
    (fun t => t.price_per_unit))

/-- The `_avg_with_fallback` closure of `calculate_pricing_recommendation`:
`for days in (30, 90, 180, 365)` return the first non-NULL average, else
the all-time average. -/
def DatabaseService.avg_with_fallback (db : DB) (product_id : Nat)
    (market : String) : Option ℚ :=
  match DatabaseService.get_average_competitor_price db product_id market 30 with
  | some v => some v
  | none =>
  match DatabaseService.get_average_competitor_price db product_id market 90 with
  | some v => some v
  | none =>
  match DatabaseService.get_average_competitor_price db product_id market 180 with
  | some v => some v
  | none =>
  match DatabaseService.get_average_competitor_price db product_id market 365 with
  | some v => some v
  | none => DatabaseService.get_average_competitor_price_anytime db product_id market

/-- Python's `round(x)` to an integer: round-half-to-even (banker's
rounding), on the exact rational model of the float. -/
def pyRoundHalfEven (q : ℚ) : ℤ :=
  let f := ⌊q⌋
  if q - f < 1/2 then f
  else if (1 : ℚ)/2 < q - f then f + 1
  else if f % 2 = 0 then f else f + 1

/-- Python's `round(x, 2)`. -/
def pyRound2 (q : ℚ) : ℚ := (pyRoundHalfEven (q * 100) : ℚ) / 100

/-- The dict returned by `calculate_pricing_recommendation`. -/
structure PricingRec where
  product_id : Nat
  product_name : Option String
  recommended : ℚ
  farm_avg : Option ℚ
  supermarket_avg : Option ℚ
  distribution_avg : Option ℚ
  historical_avg : Option ℚ
deriving Repr, DecidableEq

/-- `DatabaseService.calculate_pricing_recommendation` (lines 460–491):
three market-tier averages with widening windows, historical average,
`base = farm if farm is not None else historical if historical is not
None else 0.0`, `recommended = round(base * 1.10, 2) if base else None`,
emitted as `0.0` when `None`.  The float literal `1.10` is modelled as
the exact `11/10`. -/
def DatabaseService.calculate_pricing_recommendation (db : DB)
    (product_id : Nat) : PricingRec :=
  let farm := DatabaseService.avg_with_fallback db product_id "Farm"
  let supermarket := DatabaseService.avg_with_fallback db product_id "Supermarket"
  let distribution := DatabaseService.avg_with_fallback db product_id "Distribution Center"
  let historical := DatabaseService.get_historical_transaction_prices db product_id
  let base : ℚ :=
    match farm with
    | some v => v
    | none => match historical with
      | some h => h
      | none => 0
  let recommended : Option ℚ :=
    if base ≠ 0 then some (pyRound2 (base * (11/10))) else none
  { product_id := product_id
    product_name := (db.products.find? (fun p => p.product_id = product_id)).map
      (fun p => p.product_name)
    recommended := recommended.getD 0
    farm_avg := farm
    supermarket_avg := supermarket
    distribution_avg := distribution
    historical_avg := historical }

/-- Modelled from the spec for comparison with the code (claim C5): the
recommended value equals the cheapest-tier average (or the historical
transaction average when the cheapest tier has no data at any window)
scaled by a +10% markup factor. -/
def specCheapestTierRecommendation (db : DB) (product_id : Nat) : Option ℚ :=
  let tiers := [DatabaseService.avg_with_fallback db product_id "Farm",
    DatabaseService.avg_with_fallback db product_id "Supermarket",
    DatabaseService.avg_with_fallback db product_id "Distribution Center"]
  let present := tiers.filterMap id
  let base? :=
    match present.min? with
    | some m => some m
    | none => DatabaseService.get_historical_transaction_prices db product_id
  base?.map (fun v => pyRound2 (v * (11/10)))

/-! ## get_pricing_insights handler (tool_registry.py lines 275–308) -/

/-- Two-decimal fixed-point rendering of `f"{x:.2f}"` on the exact
rational model of the float. -/
def decimal2 (q : ℚ) : String :=
  let n := pyRoundHalfEven (q * 100)
  let a := n.natAbs
  let frac := a % 100
  (if n < 0 then "-" else "") ++ toString (a / 100) ++ "." ++
    (if frac < 10 then "0" ++ toString frac else toString frac)

/-- The `fmt` closure of the handler: `f"{float(x):.2f}"`, and `"N/A"`
when `float(x)` raises (None input). -/
def fmtPrice : Option ℚ → String
  | some q => decimal2 q
  | none => "N/A"

/-- The recommendation dict as a Python value (the `data` payload). -/
def PricingRec.toPy (r : PricingRec) : PyVal :=
  .pdict [("product_id", .pnum r.product_id),
    ("product_name", match r.product_name with | some n => .pstr n | none => .pnone),
    ("recommended", .pnum r.recommended),
    ("farm_avg", match r.farm_avg with | some q => .pnum q | none => .pnone),
    ("supermarket_avg", match r.supermarket_avg with | some q => .pnum q | none => .pnone),
    ("distribution_avg", match r.distribution_avg with | some q => .pnum q | none => .pnone),
    ("historical_avg", match r.historical_avg with | some q => .pnum q | none => .pnone)]

/-- Message body of `get_pricing_insights_handler`. -/
def pricingInsightsMsg (canonical : String) (rec : PricingRec) : String :=
  "Current market prices for " ++ canonical ++ ":\n" ++
  "- Farm/Local: " ++ fmtPrice rec.farm_avg ++ " ETB/kg\n" ++
  "- Supermarket: " ++ fmtPrice rec.supermarket_avg ++ " ETB/kg\n" ++
  "- Distribution Center: " ++ fmtPrice rec.distribution_avg ++ " ETB/kg\n\n" ++
  "Historical selling price: " ++ fmtPrice rec.historical_avg ++ " ETB/kg\n\n" ++
  "Recommendation: Set price at " ++ fmtPrice (some rec.recommended) ++
    " ETB/kg for competitive positioning and quick turnover."

/-- `ToolRegistry.get_pricing_insights_handler` (the live first variant):
resolve the product exactly then fuzzily at threshold 0.8, fail with
`Unknown product` when unresolved, otherwise return the recommendation
dict with the formatted market-price message (prefixed by the correction
notice when fuzzily resolved). -/
def ToolRegistry.get_pricing_insights_handler (db : DB) (product_name_arg : String) :
    ToolResult :=
  let product_name := pyStrip product_name_arg
  if product_name = "" then ToolResult.fail "product_name is required"
  else
    match DatabaseService.get_product_by_name db product_name with
    | some product =>
      let rec0 := DatabaseService.calculate_pricing_recommendation db product.product_id
      ToolResult.ok rec0.toPy (pricingInsightsMsg product.product_name rec0)
    | none =>
      match (DatabaseService.fuzzy_get_product_by_name db product_name (8/10)).1 with
      | none => ToolResult.fail ("Unknown product \x27" ++ product_name ++ "\x27")
      | some product =>
        let rec0 := DatabaseService.calculate_pricing_recommendation db product.product_id
        ToolResult.ok rec0.toPy
          ("I\u2019ll use " ++ product.product_name ++ " (from \x27" ++ product_name ++
            "\x27).\n\n" ++ pricingInsightsMsg product.product_name rec0)

/-- Concrete pricing store for claim C5: the Farm tier (100 ETB/kg) is
not the cheapest tier (Supermarket, 50 ETB/kg). -/
def pricingCexDB : DB :=
  { products := [⟨1, "Tomato"⟩], inventory := [], orders := [], order_items := [],
    competitor_pricing := [⟨1, 100, "Farm", 0⟩, ⟨1, 50, "Supermarket", 0⟩],
    transaction_history := [], today := 0 }

/-! ## suggest_flash_sale handler (tool_registry.py lines 617–652) -/

/-- The `discount_for` closure: 30% when already expired or expiring
today (`days_left < 1`), otherwise the baseline 20%. -/
def discount_for (days_left : Int) : Nat :=
  if days_left < 1 then 30 else 20

/-- Python float `repr` for the message text, exact for integral and
two-decimal values (the only values the message path produces here). -/
def floatRepr (q : ℚ) : String :=
  if q.den = 1 then toString q.num ++ ".0" else decimal2 q

/-- One suggestion dict `{"inventory_id": .., "discount_percent": ..,
"new_price": round(price * (1 - pct/100), 2)}`. -/
def flashSuggestion (today : Int) (i : InventoryRow) : PyVal :=
  let days_left := i.expiry_date.getD 0 - today
  let pct := discount_for days_left
  .pdict [("inventory_id", .pnum i.inventory_id),
    ("discount_percent", .pnum pct),
    ("new_price", .pnum (pyRound2 (i.price_per_unit * (1 - (pct : ℚ) / 100))))]

/-- One alert line of the message. -/
def flashLine (today : Int) (it : InventoryRow × String) : String :=
  let days_left := it.1.expiry_date.getD 0 - today
  "- " ++ it.2 ++ " (" ++ floatRepr it.1.quantity_kg ++ " kg): Expires in " ++
    toString days_left ++ " days → Suggest " ++ toString (discount_for days_left) ++
    "% flash sale"

/-- `ToolRegistry.suggest_flash_sale_handler` (the live first variant):
requires a registered supplier session, takes `days_threshold` from the
arguments when it is an int (default 3), lists the supplier rows
expiring within the threshold with a tiered discount suggestion.
`session.get("user_id")` being absent matches no inventory rows, modelled
by the empty-string supplier key. -/
def ToolRegistry.suggest_flash_sale_handler (db : DB) (store : Store)
    (days_threshold_arg : Option Int) (session_id : Option String) : ToolResult :=
  match session_id with
  | none => ToolResult.fail "session_id is required"
  | some sid =>
    match SessionManager.get_session store sid with
    | none => ToolResult.fail "User must be a registered supplier"
    | some s =>
      if ¬ s.user_type = "supplier" ∨ s.registered = false then
        ToolResult.fail "User must be a registered supplier"
      else
        let days_threshold := days_threshold_arg.getD 3
        let expiring := DatabaseService.check_expiring_inventory db (s.user_id.getD "")
          days_threshold
        if expiring = [] then
          ToolResult.ok (.plist [])
            ("No expiring products in the next " ++ toString days_threshold ++ " days.")
        else
          let suggestions := expiring.map (fun it => flashSuggestion db.today it.1)
          let lines := "⚠️ Expiring Inventory Alert:" :: expiring.map (flashLine db.today)
          ToolResult.ok (.plist suggestions) (String.intercalate "\n" lines)

/-! ## create_order handler (tool_registry.py lines 394–460)

`delivery_date` arrives as a parsed ISO calendar date (`Option Int`):
a missing/empty argument is `none`; a malformed string raises in
`date.fromisoformat` and propagates to `execute`, outside this path.
The server-generated `uuid_generate_v4()` order id is passed in as
`freshOrderId`. -/

/-- One entry of the `items` argument. -/
structure OrderItemArg where
  product_name : String
  quantity_kg : ℚ
deriving Repr, DecidableEq

/-- The handler arguments after Python-level coercions. -/
structure CreateOrderArgs where
  items : List OrderItemArg
  delivery_date : Option Int
  delivery_location : String
deriving Repr, DecidableEq

/-- One accumulated order item of the pricing loop. -/
structure OrderItemAcc where
  product_id : Nat
  product_name : String
  quantity_kg : ℚ
  price_per_unit : ℚ
deriving Repr, DecidableEq

/-- `min((float(i.price_per_unit) for i in inv_list), default=None)`. -/
def listMinPrice (inv : List InventoryRow) : Option ℚ :=
  (inv.map (fun i => i.price_per_unit)).min?

/-- ISO rendering of a model date (day number), abstracted to its
decimal representation. -/
def dateIso (d : Int) : String := toString d

/-- The item-resolution and pricing loop of `create_order_handler`:
resolve each product exactly, price it at the minimum available
inventory price, accumulate the total; the first failure aborts with the
failed result the source returns. -/
def buildOrderItems (db : DB) :
    List OrderItemArg → List OrderItemAcc → ℚ →
      Except ToolResult (List OrderItemAcc × ℚ)
  | [], acc, total => .ok (acc, total)
  | it :: rest, acc, total =>
    match DatabaseService.get_product_by_name db it.product_name with
    | none => .error (ToolResult.fail ("Unknown product \x27" ++ it.product_name ++ "\x27"))
    | some product =>
      match listMinPrice (DatabaseService.get_available_inventory db product.product_id) with
      | none =>
        .error (ToolResult.fail ("No available inventory for \x27" ++ it.product_name ++ "\x27"))
      | some price =>
        buildOrderItems db rest
          (acc ++ [⟨product.product_id, product.product_name, it.quantity_kg, price⟩])
          (total + it.quantity_kg * price)

/-- `DatabaseService.create_order`: inserts the pending order row. -/
def DatabaseService.create_order (db : DB) (order_id customer_id : String)
    (delivery_date : Int) (delivery_location : String) (total : ℚ) : DB :=
  { db with orders := db.orders ++
      [⟨order_id, customer_id, delivery_date, delivery_location, total, "pending"⟩] }

/-- `DatabaseService.add_order_items`: inserts the item rows. -/
def DatabaseService.add_order_items (db : DB) (order_id : String)
    (items : List OrderItemAcc) : DB :=
  { db with order_items := db.order_items ++
      items.map (fun it => ⟨order_id, it.product_id, it.quantity_kg, it.price_per_unit⟩) }

/-- `f"{it[quantity_kg]}kg {it[product_id]}"` joined with `", "` (the
source interpolates the numeric product id here). -/
def orderItemsLine (items : List OrderItemAcc) : String :=
  String.intercalate ", "
    (items.map (fun it => floatRepr it.quantity_kg ++ "kg " ++ toString it.product_id))

/-- The success payload of `create_order_handler`. -/
def orderData (order_id : String) (total : ℚ) (items : List OrderItemAcc)
    (delivery_date : Int) (delivery_location : String) : PyVal :=
  .pdict [("order_id", .pstr order_id),
    ("total", .pnum total),
    ("items", .plist (items.map (fun it => .pdict
      [("product_id", .pnum it.product_id), ("product_name", .pstr it.product_name),
       ("quantity_kg", .pnum it.quantity_kg), ("price_per_unit", .pnum it.price_per_unit)]))),
    ("delivery_date", .pstr (dateIso delivery_date)),
    ("delivery_location", .pstr delivery_location),
    ("payment", .pstr "Cash on Delivery")]

/-- `ToolRegistry.create_order_handler` (the live first variant, without
fuzzy fallback): registration check, argument-presence check, past-date
guard, item resolution/pricing, then the two writes. -/
def ToolRegistry.create_order_handler (db : DB) (store : Store) (freshOrderId : String)
    (args : CreateOrderArgs) (session_id : Option String) : ToolResult × DB :=
  match session_id with
  | none => (ToolResult.fail "session_id is required", db)
  | some sid =>
    match SessionManager.get_session store sid with
    | none => (ToolResult.fail "User must be registered to create an order", db)
    | some s =>
      if s.registered = false then
        (ToolResult.fail "User must be registered to create an order", db)
      else
        match s.user_id with
        | none => (ToolResult.fail "Session missing user_id", db)
        | some customer_id =>
          match args.delivery_date with
          | none => (ToolResult.fail "items, delivery_date, and delivery_location are required", db)
          | some delivery_date =>
            if args.items = [] ∨ args.delivery_location = "" then
              (ToolResult.fail "items, delivery_date, and delivery_location are required", db)
            else if delivery_date < db.today then
              (ToolResult.fail ("Delivery date " ++ dateIso delivery_date ++
                " is in the past. Please choose today or a future date."), db)
            else
              match buildOrderItems db args.items [] 0 with
              | .error r => (r, db)
              | .ok (order_items, total) =>
                let db1 := DatabaseService.create_order db freshOrderId customer_id
                  delivery_date args.delivery_location total
                let db2 := DatabaseService.add_order_items db1 freshOrderId order_items
                (ToolResult.ok
                  (orderData freshOrderId total order_items delivery_date
                    args.delivery_location)
                  ("Order confirmed! 🎉\nOrder ID: " ++ freshOrderId ++
                   "\nItems: " ++ orderItemsLine order_items ++
                   "\nTotal: " ++ decimal2 total ++ " ETB" ++
                   "\nDelivery: " ++ dateIso delivery_date ++ " to " ++
                   args.delivery_location ++
                   "\nPayment: Cash on Delivery\n"), db2)

/-- Concrete store for claim C3: catalog with Tomato, one available
inventory line, a registered customer session under key "c". -/
def orderCexDB : DB :=
  { products := [⟨1, "Tomato"⟩],
    inventory := [⟨1, "sup", 1, 100, 50, 0, none, "active"⟩],
    orders := [], order_items := [], competitor_pricing := [],
    transaction_history := [], today := 0 }

/-- Session keyspace for claim C3. -/
def orderCexStore : Store :=
  fun k => if k = "c" then
    some { session_id := "c", user_id := some "cust", user_type := "customer",
           registered := true }
  else if k = "u" then
    some { session_id := "u", user_id := none, user_type := "unknown",
           registered := false }
  else none

/-! ## Conversation orchestrator (backend/app/orchestrator/conversation.py)

The LLM collaborator is an oracle indexed by the call number (so the
model may answer differently on every invocation), and tool execution is
an oracle indexed by the execution number (so external state beyond the
session store may evolve).  `llm_calls` and `executed` in `FlowOut` are
ghost observations for the theorems; the `resp`/`store` components are
the function's actual outputs. -/

/-- One `{role, content}` message handed to the LLM. -/
structure ChatMsg where
  role : String
  content : String
deriving Repr, DecidableEq

/-- `LLMService.chat` result: `{"type": "text"|"tool_call", ...}`. -/
inductive LLMResp where
  | text : String → LLMResp
  | tool_call : String → PyVal → LLMResp

/-- The environment of external collaborators. -/
structure FlowEnv where
  llm : Nat → List ChatMsg → Bool → LLMResp
  toolExec : Nat → String → PyVal → Store → ToolResult × Store
  max_history : Nat
  now : Nat

/-- The per-message reply `{type, content, data.url?}`. -/
structure FlowResponse where
  rtype : String
  content : String
  url : Option String := none
deriving Repr

/-- Flow output with ghost observability (`llm_calls`, `executed`). -/
structure FlowOut where
  resp : FlowResponse
  store : Store
  llm_calls : Nat
  executed : List ToolResult

/-- Python `f"{x}"` of an optional string (None prints as `None`). -/
def pyOptRepr : Option String → String
  | some s => s
  | none => "None"

/-- Python `f"{b}"` of a bool. -/
def pyBoolRepr (b : Bool) : String := if b then "True" else "False"

/-- `ConversationOrchestrator._build_messages`: preface with user
context, trailing 10 history turns with the assistant role mapped to the
Gemini `model` role, then the new user message. -/
def ConversationOrchestrator.build_messages (session : Session)
    (user_message : String) : List ChatMsg :=
  let user_type := if session.user_type = "" then "unknown" else session.user_type
  let registered := session.registered
  let name := session.name.getD ""
  let ctx := session.context
  let context_summary := "flow=" ++ pyOptRepr ctx.current_flow ++ ", awaiting=" ++
    pyBoolRepr ctx.awaiting_confirmation
  let preface :=
    "You are an Ethiopian horticulture marketplace assistant.\n\n" ++
    "USER CONTEXT: user_type=" ++ user_type ++ ", registered=" ++
      pyBoolRepr registered ++ ", name=" ++ name ++ "\n" ++
    "CURRENT STATE: " ++ context_summary ++ "\n" ++
    "Use available tools if needed. Keep responses concise.\n" ++
    "Date/time handling: Never ask the user for start/end dates. Resolve phrases like \x27today\x27, \x27tomorrow\x27, \x27this week\x27, \x27next week\x27 yourself using the get_current_time tool, and then call schedule/order tools with derived ISO dates. For supplier schedules, you may also call get_supplier_schedule without dates (defaults to current Mon–Sun).\n" ++
    "Expiry checks (suppliers): If asked about expiring items (e.g., \x27in the next 3 days\x27), call suggest_flash_sale with days_threshold (default 3).\n"
  let hist := (pySliceLast 10 session.conversation_history).filterMap (fun h =>
    if h.role = "user" ∨ h.role = "assistant" then
      some ⟨if h.role = "assistant" then "model" else "user", h.content⟩
    else none)
  ⟨"user", preface⟩ :: hist ++ [⟨"user", user_message⟩]

/-- The `for _ in range(max_calls)` loop body of `_llm_direct_flow`,
with the two fallbacks on exhaustion.  `fuel` is the remaining
iterations (3 at entry), `callIdx` counts LLM invocations, `trace`
accumulates executed tool results (ghost). -/
def llmDirectFlowLoop (env : FlowEnv) (sid : String) (session : Session) :
    Nat → Nat → List ChatMsg → Option String → Store → List ToolResult → FlowOut
  | 0, callIdx, _, last_tool_msg, store, trace =>
    match last_tool_msg with
    | some m =>
      if m ≠ "" then
        ⟨⟨"text", m, none⟩,
          SessionManager.add_message env.max_history store sid "assistant" m env.now,
          callIdx, trace⟩
      else
        ⟨⟨"text", "", none⟩,
          SessionManager.add_message env.max_history store sid "assistant" "" env.now,
          callIdx, trace⟩
    | none =>
      ⟨⟨"text", "", none⟩,
        SessionManager.add_message env.max_history store sid "assistant" "" env.now,
        callIdx, trace⟩
  | fuel + 1, callIdx, messages, last_tool_msg, store, trace =>
    match env.llm callIdx messages true with
    | .tool_call name args =>
      let step := env.toolExec trace.length name args store
      let tool_result := step.1
      let store1 := step.2
      let urlOpt : Option String :=
        if name = "generate_product_image" then
          match tool_result.data.dictGet "image_url" with
          | some (.pstr u) => if u ≠ "" then some u else none
          | _ => none
        else none
      match urlOpt with
      | some url =>
        ⟨⟨"image", tool_result.message, some url⟩,
          SessionManager.add_message env.max_history store1 sid "assistant"
            tool_result.message env.now,
          callIdx + 1, trace ++ [tool_result]⟩
      | none =>
        let context_block := "Tool result (context):\n" ++ tool_result.message ++
          "\n\nUse this context to answer the user\x27s last question concisely."
        let sess := (SessionManager.get_session store1 sid).getD session
        llmDirectFlowLoop env sid session fuel (callIdx + 1)
          (ConversationOrchestrator.build_messages sess context_block)
          (some tool_result.message) store1 (trace ++ [tool_result])
    | .text content =>
      if pyStrip content = "" then
        let sess2 := (SessionManager.get_session store sid).getD session
        let final_messages := ConversationOrchestrator.build_messages sess2
          "Finalize your answer to the user\x27s last message now. Provide a concise, helpful reply without calling tools."
        match env.llm (callIdx + 1) final_messages false with
        | .text final_text =>
          if pyStrip final_text ≠ "" then
            ⟨⟨"text", final_text, none⟩,
              SessionManager.add_message env.max_history store sid "assistant"
                final_text env.now,
              callIdx + 2, trace⟩
          else
            llmDirectFlowLoop env sid session fuel (callIdx + 2) messages
              last_tool_msg store trace
        | .tool_call _ _ =>
          llmDirectFlowLoop env sid session fuel (callIdx + 2) messages
            last_tool_msg store trace
      else
        ⟨⟨"text", content, none⟩,
          SessionManager.add_message env.max_history store sid "assistant" content env.now,
          callIdx + 1, trace⟩

/-- `ConversationOrchestrator._llm_direct_flow` (conversation.py lines
297–360): at most `max_calls = 3` iterations. -/
def ConversationOrchestrator.llm_direct_flow (env : FlowEnv) (store : Store)
    (sid : String) (session : Session) (user_message : String) : FlowOut :=
  llmDirectFlowLoop env sid session 3 0
    (ConversationOrchestrator.build_messages session user_message) none store []

/-- `ConversationOrchestrator.process_message` (conversation.py lines
26–42): load the session; when missing, `create_session()` allocates a
*fresh* id (discarding it), the original id is re-read, the user turn is
appended under the original id, and the subsequent
`(session.get("context") or {}).get("current_flow")` dereferences None —
an `AttributeError`, modelled as the error branch.  On the happy path
the pre-append session snapshot is handed to `_llm_direct_flow`, exactly
as in the source (the `StateMachine` built on line 39 is unused before
the early return on line 42). -/
def ConversationOrchestrator.process_message (env : FlowEnv) (store : Store)
    (freshId : String) (session_id : String) (user_message : String) :
    Except String FlowOut :=
  match SessionManager.get_session store session_id with
  | some session =>
    let store1 := SessionManager.add_message env.max_history store session_id "user"
      user_message env.now
    .ok (ConversationOrchestrator.llm_direct_flow env store1 session_id session
      user_message)
  | none =>
    let created := SessionManager.create_session store freshId
    let store1 := created.2
    match SessionManager.get_session store1 session_id with
    | some session =>
      let store2 := SessionManager.add_message env.max_history store1 session_id "user"
        user_message env.now
      .ok (ConversationOrchestrator.llm_direct_flow env store2 session_id session
        user_message)
    | none =>
      let _store2 := SessionManager.add_message env.max_history store1 session_id "user"
        user_message env.now
      .error "AttributeError: \x27NoneType\x27 object has no attribute \x27get\x27"

-- ===================== THEOREMS =====================

/-- One `add_message` step on a history not exceeding the maximum yields
the last `max_history` entries of the appended list. -/
theorem SessionManager.trimAppend_eq_drop (maxH : Nat) (hpos : 0 < maxH)
    (hist : List HistMsg) (hle : hist.length ≤ maxH) (m : HistMsg) :
    SessionManager.trimAppend maxH hist m =
      (hist ++ [m]).drop ((hist.length + 1) - maxH) := by
  unfold SessionManager.trimAppend pySliceLast
  simp only [List.length_append, List.length_cons, List.length_nil]
  by_cases hlt : maxH < hist.length + 1
  · simp [hlt, hpos.ne']
  · have : hist.length + 1 - maxH = 0 := by omega
    simp [hlt, this]

/-- Folding `trimAppend` over any message list, starting from a history
within bounds, retains exactly the trailing `max_history` entries
(everything when the total stays within bounds). -/
theorem SessionManager.trimAppend_foldl (maxH : Nat) (hpos : 0 < maxH)
    (ms : List HistMsg) :
    ∀ hist : List HistMsg, hist.length ≤ maxH →
      ms.foldl (SessionManager.trimAppend maxH) hist =
        (hist ++ ms).drop ((hist ++ ms).length - maxH) := by
  induction ms with
  | nil =>
    intro hist hle
    simp only [List.foldl_nil, List.append_nil]
    have : hist.length - maxH = 0 := by omega
    simp [this]
  | cons m ms ih =>
    intro hist hle
    have hstep := SessionManager.trimAppend_eq_drop maxH hpos hist hle m
    have hlen' : (SessionManager.trimAppend maxH hist m).length ≤ maxH := by
      rw [hstep]
      simp only [List.length_drop, List.length_append, List.length_cons, List.length_nil]
      omega
    rw [List.foldl_cons, ih _ hlen', hstep]
    have hd : (hist.length + 1) - maxH ≤ (hist ++ [m]).length := by
      simp only [List.length_append, List.length_cons, List.length_nil]
      omega
    have hx : List.drop (hist.length + 1 - maxH) (hist ++ [m]) ++ ms
        = List.drop (hist.length + 1 - maxH) (hist ++ [m] ++ ms) := by
      rw [List.drop_append_of_le_length hd]
    rw [hx, List.drop_drop]
    have hy : hist ++ [m] ++ ms = hist ++ m :: ms := by simp
    rw [hy]
    congr 1
    simp only [List.length_drop, List.length_append, List.length_cons, List.length_nil]
    omega

/-- `add_message` on a present session only rewrites its history through
`trimAppend`. -/
theorem SessionManager.add_message_present (maxH : Nat) (st : Store) (sid : String)
    (s : Session) (hs : st sid = some s) (role content : String) (now : Nat) :
    SessionManager.add_message maxH st sid role content now sid =
      some { s with conversation_history :=
        (SessionManager.trimAppend maxH s.conversation_history
          { role := role, content := content, timestamp := now }) } := by
  unfold SessionManager.add_message SessionManager.get_session Store.put
  simp [hs]

/-- Folding `add_message` over a list of `(role, content, now)` entries
keeps the session present and folds `trimAppend` over its history. -/
theorem SessionManager.add_message_foldl (maxH : Nat) (sid : String)
    (entries : List (String × String × Nat)) :
    ∀ (st : Store) (s : Session), st sid = some s →
      (entries.foldl
        (fun acc e => SessionManager.add_message maxH acc sid e.1 e.2.1 e.2.2) st) sid =
      some { s with conversation_history :=
        ((entries.map
            (fun e => ({ role := e.1, content := e.2.1, timestamp := e.2.2 } : HistMsg))).foldl
          (SessionManager.trimAppend maxH) s.conversation_history) } := by
  induction entries with
  | nil => intro st s hs; simpa using hs
  | cons e es ih =>
    intro st s hs
    have hstep := SessionManager.add_message_present maxH st sid s hs e.1 e.2.1 e.2.2
    rw [List.foldl_cons, List.map_cons, List.foldl_cons]
    exact ih _ _ hstep

/-- C9: for every session starting with empty history, appending more than
the configured maximum number of entries via `add_message` retains exactly
the `max_history` most-recent entries, with the oldest evicted first
(`List.drop` keeps the trailing suffix in arrival order). -/
theorem session_history_fifo_trim (maxH : Nat) (hpos : 0 < maxH) (sid : String)
    (st : Store) (s0 : Session) (h0 : st sid = some s0)
    (hempty : s0.conversation_history = [])
    (entries : List (String × String × Nat)) (hlen : maxH < entries.length) :
    ((entries.foldl
        (fun acc e => SessionManager.add_message maxH acc sid e.1 e.2.1 e.2.2) st) sid).map
      Session.conversation_history =
      some ((entries.map
        (fun e => ({ role := e.1, content := e.2.1, timestamp := e.2.2 } : HistMsg))).drop
          (entries.length - maxH)) := by
  rw [SessionManager.add_message_foldl maxH sid entries st s0 h0, hempty, Option.map_some']
  have hfold := SessionManager.trimAppend_foldl maxH hpos
    (entries.map (fun e => ({ role := e.1, content := e.2.1, timestamp := e.2.2 } : HistMsg)))
    [] (by simp)
  simp only [List.nil_append] at hfold
  simp [hfold]

/-- C9 witness: maximum 2, three appended turns; only the two most recent
survive, in order. -/
theorem session_history_fifo_trim_witness :
    (0 : Nat) < 2 ∧
    ((([("user", "m1", 1), ("assistant", "m2", 2), ("user", "m3", 3)] :
        List (String × String × Nat)).foldl
        (fun acc e => SessionManager.add_message 2 acc "s" e.1 e.2.1 e.2.2)
        (fun k => if k = "s" then some {} else none)) "s").map
      Session.conversation_history =
      some [{ role := "assistant", content := "m2", timestamp := 2 },
            { role := "user", content := "m3", timestamp := 3 }] := by
  refine ⟨by decide, ?_⟩
  have h := session_history_fifo_trim 2 (by decide) "s"
    (fun k => if k = "s" then some {} else none) {} (by simp)
    (by rfl)
    [("user", "m1", 1), ("assistant", "m2", 2), ("user", "m3", 3)] (by decide)
  simpa using h

/-- C1: Tool Registry dispatch is total: for every tool name and argument
map (and every external state), `execute` returns a well-formed envelope —
the handler's result when the handler returns one, a `success=false`
envelope carrying the exception text when the handler raises, and a
failed result naming the tool as unknown when the name is unregistered.
Being a total Lean function into `ToolResult × σ`, no exception escapes
the `execute` boundary. -/
theorem toolRegistry_execute_total {σ : Type} (handlers : String → Option (Handler σ))
    (name : String) (args : PyVal) (st : σ) :
    (handlers name = none →
      ToolRegistry.execute handlers name args st =
        (ToolResult.fail ("Unknown tool: " ++ name), st)) ∧
    (∀ h, handlers name = some h →
      (∀ res st', h args st = (.ok res, st') →
        ToolRegistry.execute handlers name args st = (res, st')) ∧
      (∀ e st', h args st = (.error e, st') →
        ToolRegistry.execute handlers name args st =
          (ToolResult.fail (name ++ " failed: " ++ e), st'))) := by
  refine ⟨fun hnone => ?_, fun h hsome => ⟨fun res st' hok => ?_, fun e st' herr => ?_⟩⟩
  · simp [ToolRegistry.execute, hnone]
  · simp [ToolRegistry.execute, hsome, hok]
  · simp [ToolRegistry.execute, hsome, herr]

/-- C1 witness: concrete registry with one registered tool; dispatch of an
unknown name, a normally-returning handler, and a raising handler. -/
theorem toolRegistry_execute_total_witness :
    ToolRegistry.execute (σ := Nat)
      (fun n => if n = "echo" then some (fun _ s => (.ok (ToolResult.ok .pnone "hi"), s + 1))
                else if n = "boom" then some (fun _ s => (.error "division by zero", s))
                else none) "nosuch" .pnone 0 =
      (ToolResult.fail "Unknown tool: nosuch", 0) ∧
    ToolRegistry.execute (σ := Nat)
      (fun n => if n = "echo" then some (fun _ s => (.ok (ToolResult.ok .pnone "hi"), s + 1))
                else if n = "boom" then some (fun _ s => (.error "division by zero", s))
                else none) "echo" .pnone 0 = (ToolResult.ok .pnone "hi", 1) ∧
    ToolRegistry.execute (σ := Nat)
      (fun n => if n = "echo" then some (fun _ s => (.ok (ToolResult.ok .pnone "hi"), s + 1))
                else if n = "boom" then some (fun _ s => (.error "division by zero", s))
                else none) "boom" .pnone 0 =
      (ToolResult.fail "boom failed: division by zero", 0) := by
  refine ⟨?_, ?_, ?_⟩
  · exact (toolRegistry_execute_total _ "nosuch" .pnone 0).1 (by rfl)
  · exact (((toolRegistry_execute_total _ "echo" .pnone 0).2 _ (by rfl)).1
      (ToolResult.ok .pnone "hi") 1 (by rfl))
  · exact (((toolRegistry_execute_total _ "boom" .pnone 0).2 _ (by rfl)).2
      "division by zero" 0 (by rfl))

/-- C10: `can_transition` is a pure membership check of the target in the
current state's allowed-target set; `transition` moves to the target
exactly when allowed and otherwise fails with a descriptive error naming
both the current and attempted state, leaving the state unchanged (the
embedding returns the error without producing a new state). -/
theorem stateMachine_transition_correct (s t : String) :
    (StateMachine.can_transition s t = true ↔ t ∈ StateMachine.transitionsOf s) ∧
    (StateMachine.can_transition s t = true → StateMachine.transition s t = .ok t) ∧
    (StateMachine.can_transition s t = false →
      StateMachine.transition s t =
        .error ("Invalid transition: " ++ s ++ " -> " ++ t)) := by
  refine ⟨?_, fun hc => ?_, fun hc => ?_⟩
  · simp [StateMachine.can_transition, List.contains_iff_exists_mem_beq]
  · simp [StateMachine.transition, hc]
  · simp [StateMachine.transition, hc]

/-- C10 witness: from `ordering`, moving to `confirming_order` is allowed
and taken; moving to `registering` is refused with the message naming
both states. -/
theorem stateMachine_transition_correct_witness :
    StateMachine.can_transition "ordering" "confirming_order" = true ∧
    StateMachine.transition "ordering" "confirming_order" = .ok "confirming_order" ∧
    StateMachine.transition "ordering" "registering" =
      .error ("Invalid transition: " ++ "ordering" ++ " -> " ++ "registering") := by
  refine ⟨by decide, ?_, ?_⟩
  · exact (stateMachine_transition_correct "ordering" "confirming_order").2.1 (by decide)
  · exact (stateMachine_transition_correct "ordering" "registering").2.2 (by decide)

/-- The inner loop of `find_longest_match` preserves the row-map and
best-block window invariants. -/
theorem SeqM.innerLoop_inv (alo ahi i blo bhi : Nat) (hai : alo ≤ i) (hia : i < ahi)
    (f : Nat → Nat) (hf : SeqM.J2Inv alo blo bhi i f) :
    ∀ (js : List Nat) (g : Nat → Nat) (best : Nat × Nat × Nat),
      SeqM.J2Inv alo blo bhi (i + 1) g → SeqM.BestInv alo ahi blo bhi best →
      SeqM.J2Inv alo blo bhi (i + 1) (SeqM.innerLoop i blo bhi f js g best).1 ∧
      SeqM.BestInv alo ahi blo bhi (SeqM.innerLoop i blo bhi f js g best).2 := by
  intro js
  induction js with
  | nil => intro g best hg hb; exact ⟨hg, hb⟩
  | cons j js ih =>
    intro g best hg hb
    by_cases h1 : j < blo
    · simpa only [SeqM.innerLoop, if_pos h1] using ih g best hg hb
    · by_cases h2 : bhi ≤ j
      · simpa only [SeqM.innerLoop, if_neg h1, if_pos h2] using ⟨hg, hb⟩
      · have hjb : blo ≤ j := Nat.le_of_not_lt h1
        have hjhi : j < bhi := Nat.lt_of_not_le h2
        have hk0 : 1 ≤ (if j = 0 then 0 else f (j - 1)) + 1 := by omega
        have hk1 : (if j = 0 then 0 else f (j - 1)) + 1 + blo ≤ j + 1 := by
          by_cases hj0 : j = 0
          · subst hj0
            have hif : (if (0 : Nat) = 0 then (0 : Nat) else f (0 - 1)) = 0 := rfl
            omega
          · by_cases hfz : f (j - 1) = 0
            · simp only [if_neg hj0, hfz]; omega
            · have h := hf (j - 1) hfz
              simp only [if_neg hj0]; omega
        have hk2 : (if j = 0 then 0 else f (j - 1)) + 1 + alo ≤ i + 1 := by
          by_cases hj0 : j = 0
          · subst hj0
            have hif : (if (0 : Nat) = 0 then (0 : Nat) else f (0 - 1)) = 0 := rfl
            omega
          · by_cases hfz : f (j - 1) = 0
            · simp only [if_neg hj0, hfz]; omega
            · have h := hf (j - 1) hfz
              simp only [if_neg hj0]; omega
        have hg' : SeqM.J2Inv alo blo bhi (i + 1)
            (fun x => if x = j then (if j = 0 then 0 else f (j - 1)) + 1 else g x) := by
          intro x hx
          by_cases hxj : x = j
          · subst hxj
            simp only [if_pos rfl] at hx ⊢
            exact ⟨hjb, hjhi, hk1, hk2⟩
          · simp only [if_neg hxj] at hx ⊢
            exact hg x hx
        simp only [SeqM.innerLoop, if_neg h1, if_neg h2]
        by_cases h3 : best.2.2 < (if j = 0 then 0 else f (j - 1)) + 1
        · have hb' : SeqM.BestInv alo ahi blo bhi
              (i + 1 - ((if j = 0 then 0 else f (j - 1)) + 1),
               j + 1 - ((if j = 0 then 0 else f (j - 1)) + 1),
               (if j = 0 then 0 else f (j - 1)) + 1) := by
            right
            dsimp only
            refine ⟨hk0, by omega, by omega, by omega, by omega⟩
          simpa only [if_pos h3] using ih _ _ hg' hb'
        · simpa only [if_neg h3] using ih _ _ hg' hb

/-- The outer loop of `find_longest_match` preserves the best-block
window invariant across rows `i, i+1, …`. -/
theorem SeqM.outerLoop_inv (a b : List Char) (alo ahi blo bhi : Nat) :
    ∀ (n i : Nat), alo ≤ i → i + n ≤ ahi →
      ∀ (f : Nat → Nat) (best : Nat × Nat × Nat),
        SeqM.J2Inv alo blo bhi i f → SeqM.BestInv alo ahi blo bhi best →
        SeqM.BestInv alo ahi blo bhi
          (SeqM.outerLoop a b blo bhi (List.range' i n) f best) := by
  intro n
  induction n with
  | zero => intro i _ _ f best _ hb; simpa [SeqM.outerLoop] using hb
  | succ n ih =>
    intro i hai hin f best hf hb
    rw [List.range'_succ]
    have hstep := SeqM.innerLoop_inv alo ahi i blo bhi hai (by omega) f hf
      (SeqM.b2j b (a.getD i (Char.ofNat 0))) (fun _ => 0) best
      (by intro x hx; simp at hx) hb
    simp only [SeqM.outerLoop]
    exact ih (i + 1) (by omega) (by omega) _ _ hstep.1 hstep.2

/-- The first extension loop preserves the best-block window invariant. -/
theorem SeqM.extendLo_inv (a b : List Char) (alo ahi blo bhi : Nat) :
    ∀ (bi bj bs : Nat), SeqM.BestInv alo ahi blo bhi (bi, bj, bs) →
      SeqM.BestInv alo ahi blo bhi (SeqM.extendLo a b alo blo bi bj bs) := by
  intro bi
  induction bi with
  | zero => intro bj bs hb; simpa [SeqM.extendLo] using hb
  | succ bi ih =>
    intro bj bs hb
    by_cases h : alo < bi + 1 ∧ blo < bj ∧
        a.getD bi (Char.ofNat 0) = b.getD (bj - 1) (Char.ofNat 0)
    · have hb' : SeqM.BestInv alo ahi blo bhi (bi, bj - 1, bs + 1) := by
        rcases hb with ⟨hbi, hbj, hbs⟩ | ⟨h1, h2, h3, h4, h5⟩
        · have hbi' : bi + 1 = alo := hbi
          exact absurd h.1 (by omega)
        · have h1' : 1 ≤ bs := h1
          have h2' : alo ≤ bi + 1 := h2
          have h3' : blo ≤ bj := h3
          have h4' : bi + 1 + bs ≤ ahi := h4
          have h5' : bj + bs ≤ bhi := h5
          have hblo : blo < bj := h.2.1
          exact Or.inr ⟨show 1 ≤ bs + 1 by omega, show alo ≤ bi by omega,
            show blo ≤ bj - 1 by omega, show bi + (bs + 1) ≤ ahi by omega,
            show bj - 1 + (bs + 1) ≤ bhi by omega⟩
      simpa only [SeqM.extendLo, if_pos h] using ih _ _ hb'
    · simpa only [SeqM.extendLo, if_neg h] using hb

/-- The second extension loop preserves the best-block window invariant. -/
theorem SeqM.extendHi_inv (a b : List Char) (alo ahi blo bhi bi bj : Nat) :
    ∀ (fuel bs : Nat), SeqM.BestInv alo ahi blo bhi (bi, bj, bs) →
      SeqM.BestInv alo ahi blo bhi (SeqM.extendHi a b ahi bhi bi bj fuel bs) := by
  intro fuel
  induction fuel with
  | zero => intro bs hb; simpa [SeqM.extendHi] using hb
  | succ fuel ih =>
    intro bs hb
    by_cases h : bi + bs < ahi ∧ bj + bs < bhi ∧
        a.getD (bi + bs) (Char.ofNat 0) = b.getD (bj + bs) (Char.ofNat 0)
    · have hb' : SeqM.BestInv alo ahi blo bhi (bi, bj, bs + 1) := by
        rcases hb with ⟨hbi, hbj, hbs⟩ | ⟨h1, h2, h3, h4, h5⟩
        · have hbi' : bi = alo := hbi
          have hbj' : bj = blo := hbj
          have hbs' : bs = 0 := hbs
          exact Or.inr ⟨show 1 ≤ bs + 1 by omega, show alo ≤ bi by omega,
            show blo ≤ bj by omega, show bi + (bs + 1) ≤ ahi by omega,
            show bj + (bs + 1) ≤ bhi by omega⟩
        · have h1' : 1 ≤ bs := h1
          have h2' : alo ≤ bi := h2
          have h3' : blo ≤ bj := h3
          exact Or.inr ⟨show 1 ≤ bs + 1 by omega, h2', h3',
            show bi + (bs + 1) ≤ ahi by omega, show bj + (bs + 1) ≤ bhi by omega⟩
      simpa only [SeqM.extendHi, if_pos h] using ih _ hb'
    · simpa only [SeqM.extendHi, if_neg h] using hb

/-- `find_longest_match` returns a block inside the window: either an
empty block at `(alo, blo)` or a nonempty block with
`alo ≤ i`, `blo ≤ j`, `i + k ≤ ahi`, `j + k ≤ bhi`. -/
theorem SeqM.flm_inv (a b : List Char) (alo ahi blo bhi : Nat) :
    SeqM.BestInv alo ahi blo bhi (SeqM.find_longest_match a b alo ahi blo bhi) := by
  have h0 : SeqM.BestInv alo ahi blo bhi (alo, blo, 0) := Or.inl ⟨rfl, rfl, rfl⟩
  have hout : SeqM.BestInv alo ahi blo bhi
      (SeqM.outerLoop a b blo bhi (List.range' alo (ahi - alo)) (fun _ => 0) (alo, blo, 0)) := by
    by_cases hle : alo ≤ ahi
    · exact SeqM.outerLoop_inv a b alo ahi blo bhi (ahi - alo) alo le_rfl (by omega)
        (fun _ => 0) (alo, blo, 0) (by intro x hx; simp at hx) h0
    · have hz : ahi - alo = 0 := by omega
      rw [hz]
      simpa [SeqM.outerLoop] using h0
  rcases ho : SeqM.outerLoop a b blo bhi (List.range' alo (ahi - alo))
      (fun _ => 0) (alo, blo, 0) with ⟨bi, bj, bs⟩
  rw [ho] at hout
  have hlo := SeqM.extendLo_inv a b alo ahi blo bhi bi bj bs hout
  rcases hl : SeqM.extendLo a b alo blo bi bj bs with ⟨ci, cj, cs⟩
  rw [hl] at hlo
  have hhi := SeqM.extendHi_inv a b alo ahi blo bhi ci cj (ahi - (ci + cs)) cs hlo
  simp only [SeqM.find_longest_match]
  rw [ho]
  dsimp only
  rw [hl]
  dsimp only
  exact hhi

/-- The total matched size never exceeds either window width, for every
fuel value. -/
theorem SeqM.matchSumF_le (a b : List Char) :
    ∀ (fuel alo ahi blo bhi : Nat),
      SeqM.matchSumF a b fuel alo ahi blo bhi ≤ min (ahi - alo) (bhi - blo) := by
  intro fuel
  induction fuel with
  | zero => intro alo ahi blo bhi; simp [SeqM.matchSumF]
  | succ fuel ih =>
    intro alo ahi blo bhi
    have hinv := SeqM.flm_inv a b alo ahi blo bhi
    rcases hm : SeqM.find_longest_match a b alo ahi blo bhi with ⟨i, j, k⟩
    rw [hm] at hinv
    simp only [SeqM.matchSumF, hm]
    by_cases hz : k = 0
    · simp [hz]
    · rw [if_neg hz]
      have hb : 1 ≤ k ∧ alo ≤ i ∧ blo ≤ j ∧ i + k ≤ ahi ∧ j + k ≤ bhi := by
        rcases hinv with ⟨h1, h2, h3⟩ | hr
        · exact absurd h3 hz
        · exact ⟨hr.1, hr.2.1, hr.2.2.1, hr.2.2.2.1, hr.2.2.2.2⟩
      have hL := ih alo i blo j
      have hR := ih (i + k) ahi (j + k) bhi
      have hL1 : SeqM.matchSumF a b fuel alo i blo j ≤ i - alo :=
        hL.trans (min_le_left _ _)
      have hL2 : SeqM.matchSumF a b fuel alo i blo j ≤ j - blo :=
        hL.trans (min_le_right _ _)
      have hR1 : SeqM.matchSumF a b fuel (i + k) ahi (j + k) bhi ≤ ahi - (i + k) :=
        hR.trans (min_le_left _ _)
      have hR2 : SeqM.matchSumF a b fuel (i + k) ahi (j + k) bhi ≤ bhi - (j + k) :=
        hR.trans (min_le_right _ _)
      have e1 : (if alo < i ∧ blo < j then SeqM.matchSumF a b fuel alo i blo j else 0) ≤
          i - alo := by
        split
        · exact hL1
        · exact Nat.zero_le _
      have e2 : (if alo < i ∧ blo < j then SeqM.matchSumF a b fuel alo i blo j else 0) ≤
          j - blo := by
        split
        · exact hL2
        · exact Nat.zero_le _
      have e3 : (if i + k < ahi ∧ j + k < bhi then
          SeqM.matchSumF a b fuel (i + k) ahi (j + k) bhi else 0) ≤ ahi - (i + k) := by
        split
        · exact hR1
        · exact Nat.zero_le _
      have e4 : (if i + k < ahi ∧ j + k < bhi then
          SeqM.matchSumF a b fuel (i + k) ahi (j + k) bhi else 0) ≤ bhi - (j + k) := by
        split
        · exact hR2
        · exact Nat.zero_le _
      rw [le_min_iff]
      constructor <;> omega

/-- The score is the matched-element count scaled into `[0, 1]`:
`0 ≤ 2 M / (la + lb) ≤ 1` (and exactly `1` on two empty strings). -/
theorem SeqM.ratioOf_range (a b : List Char) :
    0 ≤ SeqM.ratioOf a b ∧ SeqM.ratioOf a b ≤ 1 := by
  unfold SeqM.ratioOf
  by_cases h : a.length + b.length = 0
  · simp [h]
  · rw [if_neg h]
    have hM := SeqM.matchSumF_le a b (a.length + b.length) 0 a.length 0 b.length
    have hM1 : SeqM.matchSumF a b (a.length + b.length) 0 a.length 0 b.length ≤ a.length := by
      have := hM.trans (min_le_left _ _); omega
    have hM2 : SeqM.matchSumF a b (a.length + b.length) 0 a.length 0 b.length ≤ b.length := by
      have := hM.trans (min_le_right _ _); omega
    have hpos : (0 : ℚ) < (a.length : ℚ) + (b.length : ℚ) := by
      have : 0 < a.length + b.length := Nat.pos_of_ne_zero h
      exact_mod_cast this
    constructor
    · apply div_nonneg _ hpos.le
      positivity
    · rw [div_le_one hpos]
      have : 2 * SeqM.matchSumF a b (a.length + b.length) 0 a.length 0 b.length ≤
          a.length + b.length := by omega
      exact_mod_cast this

/-- C8 (amended): the similarity score the Entity Resolver computes
(`SequenceMatcher(None, a, b).ratio()`) always lies in `[0, 1]`.  It is
not symmetric in general (see the counterexample theorem). -/
theorem similarityScore_in_unit_range (x y : String) :
    0 ≤ similarityScore x y ∧ similarityScore x y ≤ 1 :=
  SeqM.ratioOf_range x.toList y.toList

/-- C8 counterexample: the score is not symmetric — on the pair
`("ab", "bacb")` it is `2/3` one way and `1/3` the other, refuting
`score(a,b) = score(b,a)` as stated. -/
theorem similarityScore_not_symmetric :
    similarityScore "ab" "bacb" = 2 / 3 ∧ similarityScore "bacb" "ab" = 1 / 3 ∧
    similarityScore "ab" "bacb" ≠ similarityScore "bacb" "ab" := by
  have h1 : SeqM.matchSumF "ab".toList "bacb".toList
      ("ab".toList.length + "bacb".toList.length) 0 "ab".toList.length
      0 "bacb".toList.length = 2 := by decide
  have h2 : SeqM.matchSumF "bacb".toList "ab".toList
      ("bacb".toList.length + "ab".toList.length) 0 "bacb".toList.length
      0 "ab".toList.length = 1 := by decide
  have e1 : similarityScore "ab" "bacb" = 2 / 3 := by
    unfold similarityScore SeqM.ratioOf
    rw [h1]
    norm_num
  have e2 : similarityScore "bacb" "ab" = 1 / 3 := by
    unfold similarityScore SeqM.ratioOf
    rw [h2]
    norm_num
  refine ⟨e1, e2, ?_⟩
  rw [e1, e2]
  norm_num

/-- A product with no competitor rows has a NULL average in every window. -/
theorem DatabaseService.no_competitor_rows_avg_none (db : DB) (pid : Nat)
    (market : String) (days : Int)
    (h : ∀ r ∈ db.competitor_pricing, r.product_id ≠ pid) :
    DatabaseService.get_average_competitor_price db pid market days = none := by
  unfold DatabaseService.get_average_competitor_price
  have hf : db.competitor_pricing.filter (fun r =>
      decide (r.product_id = pid ∧ r.source_market_type = market ∧
        db.today - days ≤ r.date)) = [] := by
    rw [List.filter_eq_nil_iff]
    intro r hr
    simp only [decide_eq_true_eq, not_and]
    intro h1
    exact absurd h1 (h r hr)
  rw [hf]
  simp [listAvg]

/-- A product with no competitor rows has a NULL all-time average. -/
theorem DatabaseService.no_competitor_rows_avg_anytime_none (db : DB) (pid : Nat)
    (market : String)
    (h : ∀ r ∈ db.competitor_pricing, r.product_id ≠ pid) :
    DatabaseService.get_average_competitor_price_anytime db pid market = none := by
  unfold DatabaseService.get_average_competitor_price_anytime
  have hf : db.competitor_pricing.filter (fun r =>
      decide (r.product_id = pid ∧ r.source_market_type = market)) = [] := by
    rw [List.filter_eq_nil_iff]
    intro r hr
    simp only [decide_eq_true_eq, not_and]
    intro h1
    exact absurd h1 (h r hr)
  rw [hf]
  simp [listAvg]

/-- A product with no transaction rows has a NULL historical average. -/
theorem DatabaseService.no_transaction_rows_hist_none (db : DB) (pid : Nat)
    (days : Int)
    (h : ∀ t ∈ db.transaction_history, t.product_id ≠ pid) :
    DatabaseService.get_historical_transaction_prices db pid days = none := by
  unfold DatabaseService.get_historical_transaction_prices
  have hf : db.transaction_history.filter (fun t =>
      decide (t.product_id = pid ∧ db.today - days ≤ t.order_date)) = [] := by
    rw [List.filter_eq_nil_iff]
    intro t ht
    simp only [decide_eq_true_eq, not_and]
    intro h1
    exact absurd h1 (h t ht)
  rw [hf]
  simp [listAvg]

/-- With no competitor rows the widening fallback is NULL for every tier. -/
theorem DatabaseService.no_competitor_rows_fallback_none (db : DB) (pid : Nat)
    (market : String)
    (h : ∀ r ∈ db.competitor_pricing, r.product_id ≠ pid) :
    DatabaseService.avg_with_fallback db pid market = none := by
  unfold DatabaseService.avg_with_fallback
  rw [DatabaseService.no_competitor_rows_avg_none db pid market 30 h,
    DatabaseService.no_competitor_rows_avg_none db pid market 90 h,
    DatabaseService.no_competitor_rows_avg_none db pid market 180 h,
    DatabaseService.no_competitor_rows_avg_none db pid market 365 h,
    DatabaseService.no_competitor_rows_avg_anytime_none db pid market h]

/-- With no data at all the recommendation dict carries `recommended = 0.0`
and NULL averages. -/
theorem DatabaseService.calc_rec_no_data_zero (db : DB) (pid : Nat)
    (hc : ∀ r ∈ db.competitor_pricing, r.product_id ≠ pid)
    (ht : ∀ t ∈ db.transaction_history, t.product_id ≠ pid) :
    (DatabaseService.calculate_pricing_recommendation db pid).recommended = 0 := by
  unfold DatabaseService.calculate_pricing_recommendation
  rw [DatabaseService.no_competitor_rows_fallback_none db pid "Farm" hc,
    DatabaseService.no_transaction_rows_hist_none db pid 60 ht]
  simp

/-- C6: for a resolvable product with zero competitor observations in
every tier (hence at every window) and zero historical transactions,
`get_pricing_insights` succeeds with a recommendation value of exactly 0
— the explicit non-authoritative marker — never an arbitrary positive
number. -/
theorem get_pricing_insights_no_data_zero (db : DB) (pname : String) (p : Product)
    (hne : ¬ pyStrip pname = "")
    (hp : DatabaseService.get_product_by_name db (pyStrip pname) = some p)
    (hc : ∀ r ∈ db.competitor_pricing, r.product_id ≠ p.product_id)
    (ht : ∀ t ∈ db.transaction_history, t.product_id ≠ p.product_id) :
    (ToolRegistry.get_pricing_insights_handler db pname).success = true ∧
    (ToolRegistry.get_pricing_insights_handler db pname).data.dictGet "recommended" =
      some (.pnum 0) := by
  unfold ToolRegistry.get_pricing_insights_handler
  rw [if_neg hne, hp]
  constructor
  · rfl
  · show (PricingRec.toPy _).dictGet "recommended" = _
    rw [PricingRec.toPy, PyVal.dictGet]
    rw [DatabaseService.calc_rec_no_data_zero db p.product_id hc ht]
    simp [List.find?]

/-- C6 witness: a one-product catalog with empty pricing tables; the
insights call succeeds and reports recommendation 0. -/
theorem get_pricing_insights_no_data_zero_witness :
    (ToolRegistry.get_pricing_insights_handler
      { products := [⟨1, "Tomato"⟩], inventory := [], orders := [], order_items := [],
        competitor_pricing := [], transaction_history := [], today := 0 }
      "Tomato").success = true ∧
    (ToolRegistry.get_pricing_insights_handler
      { products := [⟨1, "Tomato"⟩], inventory := [], orders := [], order_items := [],
        competitor_pricing := [], transaction_history := [], today := 0 }
      "Tomato").data.dictGet "recommended" = some (.pnum 0) := by
  exact get_pricing_insights_no_data_zero
    { products := [⟨1, "Tomato"⟩], inventory := [], orders := [], order_items := [],
      competitor_pricing := [], transaction_history := [], today := 0 }
    "Tomato" ⟨1, "Tomato"⟩ (by decide) (by decide) (by simp) (by simp)

/-- C5 (amended): each market tier average uses the widening window
fallback — 30, 90, 180, 365 days in order, then all time — and the
recommended value is the *Farm* tier average (not the cheapest tier)
scaled by the +10% markup and rounded to two decimals; when the Farm tier
has no data at any window the 60-day historical transaction average is
used instead, and with no usable base the value is 0. -/
theorem pricing_recommendation_widening_farm_based (db : DB) (pid : Nat) :
    ((DatabaseService.calculate_pricing_recommendation db pid).farm_avg =
      DatabaseService.avg_with_fallback db pid "Farm") ∧
    ((DatabaseService.calculate_pricing_recommendation db pid).supermarket_avg =
      DatabaseService.avg_with_fallback db pid "Supermarket") ∧
    ((DatabaseService.calculate_pricing_recommendation db pid).distribution_avg =
      DatabaseService.avg_with_fallback db pid "Distribution Center") ∧
    ((DatabaseService.calculate_pricing_recommendation db pid).historical_avg =
      DatabaseService.get_historical_transaction_prices db pid 60) ∧
    (∀ market v, DatabaseService.get_average_competitor_price db pid market 30 = some v →
      DatabaseService.avg_with_fallback db pid market = some v) ∧
    (∀ market v, DatabaseService.get_average_competitor_price db pid market 30 = none →
      DatabaseService.get_average_competitor_price db pid market 90 = some v →
      DatabaseService.avg_with_fallback db pid market = some v) ∧
    (∀ market v, DatabaseService.get_average_competitor_price db pid market 30 = none →
      DatabaseService.get_average_competitor_price db pid market 90 = none →
      DatabaseService.get_average_competitor_price db pid market 180 = some v →
      DatabaseService.avg_with_fallback db pid market = some v) ∧
    (∀ market v, DatabaseService.get_average_competitor_price db pid market 30 = none →
      DatabaseService.get_average_competitor_price db pid market 90 = none →
      DatabaseService.get_average_competitor_price db pid market 180 = none →
      DatabaseService.get_average_competitor_price db pid market 365 = some v →
      DatabaseService.avg_with_fallback db pid market = some v) ∧
    (∀ market, DatabaseService.get_average_competitor_price db pid market 30 = none →
      DatabaseService.get_average_competitor_price db pid market 90 = none →
      DatabaseService.get_average_competitor_price db pid market 180 = none →
      DatabaseService.get_average_competitor_price db pid market 365 = none →
      DatabaseService.avg_with_fallback db pid market =
        DatabaseService.get_average_competitor_price_anytime db pid market) ∧
    (∀ v, DatabaseService.avg_with_fallback db pid "Farm" = some v → ¬ v = 0 →
      (DatabaseService.calculate_pricing_recommendation db pid).recommended =
        pyRound2 (v * (11/10))) ∧
    (∀ h, DatabaseService.avg_with_fallback db pid "Farm" = none →
      DatabaseService.get_historical_transaction_prices db pid 60 = some h → ¬ h = 0 →
      (DatabaseService.calculate_pricing_recommendation db pid).recommended =
        pyRound2 (h * (11/10))) := by
  refine ⟨?_, ?_, ?_, ?_, ?_, ?_, ?_, ?_, ?_, ?_, ?_⟩
  · simp [DatabaseService.calculate_pricing_recommendation]
  · simp [DatabaseService.calculate_pricing_recommendation]
  · simp [DatabaseService.calculate_pricing_recommendation]
  · simp [DatabaseService.calculate_pricing_recommendation]
  · intro market v h30
    unfold DatabaseService.avg_with_fallback
    rw [h30]
  · intro market v h30 h90
    unfold DatabaseService.avg_with_fallback
    rw [h30, h90]
  · intro market v h30 h90 h180
    unfold DatabaseService.avg_with_fallback
    rw [h30, h90, h180]
  · intro market v h30 h90 h180 h365
    unfold DatabaseService.avg_with_fallback
    rw [h30, h90, h180, h365]
  · intro market h30 h90 h180 h365
    unfold DatabaseService.avg_with_fallback
    rw [h30, h90, h180, h365]
  · intro v hfarm hv
    unfold DatabaseService.calculate_pricing_recommendation
    rw [hfarm]
    simp [hv]
  · intro h hfarm hhist hh
    unfold DatabaseService.calculate_pricing_recommendation
    rw [hfarm, hhist]
    simp [hh]

/-- C5 counterexample: with Farm average 100 and Supermarket average 50,
the code recommends `round(100 * 1.10, 2) = 110`, not the
cheapest-tier-based `round(50 * 1.10, 2) = 55` that the claim describes. -/
theorem pricing_recommendation_not_cheapest_tier :
    (DatabaseService.calculate_pricing_recommendation pricingCexDB 1).recommended = 110 ∧
    specCheapestTierRecommendation pricingCexDB 1 = some 55 ∧
    (DatabaseService.calculate_pricing_recommendation pricingCexDB 1).recommended ≠ 55 := by
  have h30F : DatabaseService.get_average_competitor_price pricingCexDB 1 "Farm" 30 =
      some 100 := by
    unfold DatabaseService.get_average_competitor_price pricingCexDB listAvg
    simp [List.filter]
  have h30S : DatabaseService.get_average_competitor_price pricingCexDB 1 "Supermarket" 30 =
      some 50 := by
    unfold DatabaseService.get_average_competitor_price pricingCexDB listAvg
    simp [List.filter]
  have hDany : ∀ d, DatabaseService.get_average_competitor_price pricingCexDB 1
      "Distribution Center" d = none := by
    intro d
    unfold DatabaseService.get_average_competitor_price pricingCexDB listAvg
    simp [List.filter]
  have hDall : DatabaseService.get_average_competitor_price_anytime pricingCexDB 1
      "Distribution Center" = none := by
    unfold DatabaseService.get_average_competitor_price_anytime pricingCexDB listAvg
    simp [List.filter]
  have hF : DatabaseService.avg_with_fallback pricingCexDB 1 "Farm" = some 100 := by
    unfold DatabaseService.avg_with_fallback
    rw [h30F]
  have hS : DatabaseService.avg_with_fallback pricingCexDB 1 "Supermarket" = some 50 := by
    unfold DatabaseService.avg_with_fallback
    rw [h30S]
  have hD : DatabaseService.avg_with_fallback pricingCexDB 1 "Distribution Center" =
      none := by
    unfold DatabaseService.avg_with_fallback
    rw [hDany, hDany, hDany, hDany, hDall]
  have hcode : (DatabaseService.calculate_pricing_recommendation pricingCexDB 1).recommended
      = 110 := by
    unfold DatabaseService.calculate_pricing_recommendation
    rw [hF]
    norm_num [pyRound2, pyRoundHalfEven]
  have hspec : specCheapestTierRecommendation pricingCexDB 1 = some 55 := by
    unfold specCheapestTierRecommendation
    rw [hF, hS, hD]
    norm_num [List.filterMap, List.min?, pyRound2, pyRoundHalfEven]
  refine ⟨hcode, hspec, ?_⟩
  rw [hcode]
  norm_num

/-- C5 witness: on the concrete store, the Farm tier resolves at the
30-day window to 100 and the recommendation is `round(100 * 1.10, 2)`. -/
theorem pricing_recommendation_widening_farm_based_witness :
    DatabaseService.avg_with_fallback pricingCexDB 1 "Farm" = some 100 ∧
    (DatabaseService.calculate_pricing_recommendation pricingCexDB 1).recommended =
      pyRound2 (100 * (11/10)) := by
  have h30F : DatabaseService.get_average_competitor_price pricingCexDB 1 "Farm" 30 =
      some 100 := by
    unfold DatabaseService.get_average_competitor_price pricingCexDB listAvg
    simp [List.filter]
  have hF := (pricing_recommendation_widening_farm_based pricingCexDB 1).2.2.2.2.1
    "Farm" 100 h30F
  have hrec := (pricing_recommendation_widening_farm_based pricingCexDB 1).2.2.2.2.2.2.2.2.2.1
    100 hF (by norm_num)
  exact ⟨hF, hrec⟩

/-- A supplier row expiring tomorrow is selected by
`check_expiring_inventory` with a 3-day threshold. -/
theorem check_expiring_includes_tomorrow (db : DB) (uid : String) (i : InventoryRow)
    (p : Product) (hi : i ∈ db.inventory) (hisup : i.supplier_id = uid)
    (hact : i.status = "active") (hexp : i.expiry_date = some (db.today + 1))
    (hp : db.products.find? (fun q => q.product_id = i.product_id) = some p) :
    (i, p.product_name) ∈ DatabaseService.check_expiring_inventory db uid 3 := by
  unfold DatabaseService.check_expiring_inventory
  rw [List.mem_filterMap]
  refine ⟨i, hi, ?_⟩
  have hcond : (decide (i.supplier_id = uid) && decide (i.status = "active") &&
      (match i.expiry_date with
       | some e => decide (e ≤ db.today + 3)
       | none => false)) = true := by
    rw [hexp]
    simp [hisup, hact]
  rw [hcond]
  simp [hp]

/-- C7 (amended): a supplier inventory line whose expiry date is tomorrow
is included in the `suggest_flash_sale` results at `days_threshold = 3`,
but with the *baseline* 20% discount tier — the higher 30% tier applies
only to lines with `days_left < 1` (already expired or expiring today). -/
theorem flash_sale_tomorrow_gets_baseline_tier (db : DB) (store : Store) (sid : String)
    (s : Session) (uid : String) (i : InventoryRow) (p : Product)
    (hs : store sid = some s) (hsup : s.user_type = "supplier")
    (hreg : s.registered = true) (huid : s.user_id = some uid)
    (hi : i ∈ db.inventory) (hisup : i.supplier_id = uid) (hact : i.status = "active")
    (hexp : i.expiry_date = some (db.today + 1))
    (hp : db.products.find? (fun q => q.product_id = i.product_id) = some p) :
    (ToolRegistry.suggest_flash_sale_handler db store (some 3) (some sid)).success = true ∧
    ∃ l, (ToolRegistry.suggest_flash_sale_handler db store (some 3) (some sid)).data =
        .plist l ∧
      PyVal.pdict [("inventory_id", .pnum i.inventory_id),
        ("discount_percent", .pnum 20),
        ("new_price", .pnum (pyRound2 (i.price_per_unit * (1 - (20 : ℚ) / 100))))] ∈ l := by
  have hmem := check_expiring_includes_tomorrow db uid i p hi hisup hact hexp hp
  have hne : ¬ DatabaseService.check_expiring_inventory db uid 3 = [] :=
    fun hnil => by rw [hnil] at hmem; exact absurd hmem (List.not_mem_nil _)
  have hsugg : flashSuggestion db.today i =
      PyVal.pdict [("inventory_id", .pnum i.inventory_id),
        ("discount_percent", .pnum 20),
        ("new_price", .pnum (pyRound2 (i.price_per_unit * (1 - (20 : ℚ) / 100))))] := by
    unfold flashSuggestion discount_for
    rw [hexp]
    norm_num
  unfold ToolRegistry.suggest_flash_sale_handler SessionManager.get_session
  dsimp only
  rw [hs]
  dsimp only
  have hguard : ¬ (¬ s.user_type = "supplier" ∨ s.registered = false) := by
    simp [hsup, hreg]
  rw [if_neg hguard]
  simp only [huid, Option.getD_some]
  rw [if_neg hne]
  refine ⟨rfl, _, rfl, ?_⟩
  rw [← hsugg]
  exact List.mem_map_of_mem (fun it => flashSuggestion db.today it.1) hmem

/-- Concrete store and sessions for claim C7: one supplier line expiring
tomorrow (`expiry_date = today + 1`). -/
def flashCexDB : DB :=
  { products := [⟨1, "Tomato"⟩],
    inventory := [⟨1, "sup", 1, 10, 50, 0, some 1, "active"⟩],
    orders := [], order_items := [], competitor_pricing := [],
    transaction_history := [], today := 0 }

/-- Session keyspace for claim C7: one registered supplier session. -/
def flashCexStore : Store :=
  fun k => if k = "s" then
    some { session_id := "s", user_id := some "sup", user_type := "supplier",
           registered := true }
  else none

/-- C7 counterexample: the line expiring tomorrow is suggested at the
baseline 20% tier, not the higher 30% tier the claim asserts. -/
theorem flash_sale_tomorrow_cex :
    (ToolRegistry.suggest_flash_sale_handler flashCexDB flashCexStore (some 3)
      (some "s")).data =
      .plist [.pdict [("inventory_id", .pnum 1), ("discount_percent", .pnum 20),
        ("new_price", .pnum 40)]] ∧
    (20 : ℚ) ≠ 30 := by
  have hr : pyRound2 ((50 : ℚ) * (1 - 20 / 100)) = 40 := by
    norm_num [pyRound2, pyRoundHalfEven]
  have hlist : DatabaseService.check_expiring_inventory flashCexDB "sup" 3 =
      [(⟨1, "sup", 1, 10, 50, 0, some 1, "active"⟩, "Tomato")] := by decide
  constructor
  · simp [ToolRegistry.suggest_flash_sale_handler, SessionManager.get_session,
      flashCexStore, hlist, flashSuggestion, discount_for, hr, ToolResult.ok,
      show flashCexDB.today = 0 from rfl]
  · norm_num

/-- C7 witness: the amended theorem applied to the concrete store. -/
theorem flash_sale_tomorrow_gets_baseline_tier_witness :
    (ToolRegistry.suggest_flash_sale_handler flashCexDB flashCexStore (some 3)
      (some "s")).success = true ∧
    ∃ l, (ToolRegistry.suggest_flash_sale_handler flashCexDB flashCexStore (some 3)
        (some "s")).data = .plist l ∧
      PyVal.pdict [("inventory_id", .pnum (1 : Nat)),
        ("discount_percent", .pnum 20),
        ("new_price", .pnum (pyRound2 ((50 : ℚ) * (1 - (20 : ℚ) / 100))))] ∈ l := by
  exact flash_sale_tomorrow_gets_baseline_tier flashCexDB flashCexStore "s"
    { session_id := "s", user_id := some "sup", user_type := "supplier",
      registered := true }
    "sup" ⟨1, "sup", 1, 10, 50, 0, some 1, "active"⟩ ⟨1, "Tomato"⟩
    rfl rfl rfl rfl (by decide) rfl rfl rfl (by decide)

/-- A successful pricing loop resolved every item. -/
theorem buildOrderItems_ok_resolves (db : DB) :
    ∀ (items : List OrderItemArg) (acc : List OrderItemAcc) (total : ℚ)
      (out : List OrderItemAcc × ℚ),
      buildOrderItems db items acc total = .ok out →
      ∀ it ∈ items, ¬ DatabaseService.get_product_by_name db it.product_name = none := by
  intro items
  induction items with
  | nil => intro acc total out _ it hit; exact absurd hit (List.not_mem_nil _)
  | cons it rest ih =>
    intro acc total out h it' hit'
    rcases hp : DatabaseService.get_product_by_name db it.product_name with _ | product
    · rw [buildOrderItems, hp] at h
      exact absurd h (by simp)
    · rw [buildOrderItems, hp] at h
      dsimp only at h
      rcases hm : listMinPrice
          (DatabaseService.get_available_inventory db product.product_id) with _ | price
      · rw [hm] at h
        exact absurd h (by simp)
      · rw [hm] at h
        rcases List.mem_cons.mp hit' with heq | hmem
        · subst heq
          rw [hp]
          simp
        · exact ih _ _ _ h it' hmem

/-- `create_order_handler` performs no database writes on failure. -/
theorem create_order_fail_nowrite (db : DB) (store : Store) (freshOrderId : String)
    (args : CreateOrderArgs) (sid? : Option String) :
    (ToolRegistry.create_order_handler db store freshOrderId args sid?).1.success = false →
    (ToolRegistry.create_order_handler db store freshOrderId args sid?).2 = db := by
  unfold ToolRegistry.create_order_handler
  repeat' split
  all_goals intro h
  all_goals first
    | rfl
    | (exfalso; simp [ToolResult.ok] at h)

/-- The pricing loop fails only with `success=false` envelopes. -/
theorem buildOrderItems_error_fail (db : DB) :
    ∀ (items : List OrderItemArg) (acc : List OrderItemAcc) (total : ℚ) (r : ToolResult),
      buildOrderItems db items acc total = .error r → r.success = false := by
  intro items
  induction items with
  | nil => intro acc total r h; exact absurd h (by simp [buildOrderItems])
  | cons it rest ih =>
    intro acc total r h
    rcases hp : DatabaseService.get_product_by_name db it.product_name with _ | product
    · rw [buildOrderItems, hp] at h
      dsimp only at h
      injection h with h2
      rw [← h2]
      simp [ToolResult.fail]
    · rw [buildOrderItems, hp] at h
      dsimp only at h
      rcases hm : listMinPrice
          (DatabaseService.get_available_inventory db product.product_id) with _ | price
      · rw [hm] at h
        injection h with h2
        rw [← h2]
        simp [ToolResult.fail]
      · rw [hm] at h
        exact ih _ _ _ h

/-- A successful `create_order_handler` call implies a registered
session, fully resolved items and a non-past delivery date. -/
theorem create_order_success_facts (db : DB) (store : Store) (freshOrderId : String)
    (args : CreateOrderArgs) (sid? : Option String) :
    (ToolRegistry.create_order_handler db store freshOrderId args sid?).1.success = true →
    (∃ sid s, sid? = some sid ∧ store sid = some s ∧ s.registered = true) ∧
    (∀ it ∈ args.items, ¬ DatabaseService.get_product_by_name db it.product_name = none) ∧
    (∀ d, args.delivery_date = some d → ¬ d < db.today) := by
  intro h
  rcases hsid : sid? with _ | sid
  · rw [hsid] at h
    simp [ToolRegistry.create_order_handler, ToolResult.fail] at h
  · rw [hsid] at h
    rcases hstore : store sid with _ | s
    · simp [ToolRegistry.create_order_handler, SessionManager.get_session, hstore,
        ToolResult.fail] at h
    · by_cases hreg : s.registered = false
      · simp [ToolRegistry.create_order_handler, SessionManager.get_session, hstore,
          hreg, ToolResult.fail] at h
      · rcases huid : s.user_id with _ | cid
        · simp [ToolRegistry.create_order_handler, SessionManager.get_session, hstore,
            hreg, huid, ToolResult.fail] at h
        · rcases hdate : args.delivery_date with _ | d
          · simp [ToolRegistry.create_order_handler, SessionManager.get_session, hstore,
              hreg, huid, hdate, ToolResult.fail] at h
          · by_cases hpres : args.items = [] ∨ args.delivery_location = ""
            · simp [ToolRegistry.create_order_handler, SessionManager.get_session, hstore,
                hreg, huid, hdate, hpres, ToolResult.fail] at h
            · by_cases hpast : d < db.today
              · simp [ToolRegistry.create_order_handler, SessionManager.get_session,
                  hstore, hreg, huid, hdate, hpres, hpast, ToolResult.fail] at h
              · have hregt : s.registered = true := by
                  rcases Bool.eq_false_or_eq_true s.registered with hf | ht
                  · exact hf
                  · exact absurd ht hreg
                rcases hbuild : buildOrderItems db args.items [] 0 with r | pair
                · have hrf := buildOrderItems_error_fail db args.items [] 0 r hbuild
                  simp [ToolRegistry.create_order_handler, SessionManager.get_session,
                    hstore, hreg, huid, hdate, hpres, hpast, hbuild, hrf] at h
                · refine ⟨⟨sid, s, rfl, hstore, hregt⟩, ?_, ?_⟩
                  · exact buildOrderItems_ok_resolves db args.items [] 0 pair hbuild
                  · intro d' hd'
                    injection hd' with hdd
                    subst hdd
                    exact hpast

/-- C3: `create_order` returns a failed result and performs no database
writes whenever the caller session is unregistered (or absent), any
item's product name is unresolved, or the delivery date is strictly
before today. -/
theorem create_order_rejected_no_side_effects (db : DB) (store : Store)
    (freshOrderId : String) (args : CreateOrderArgs) (sid? : Option String) :
    ((sid? = none ∨ ∃ sid, sid? = some sid ∧
        (store sid = none ∨ ∃ s, store sid = some s ∧ s.registered = false)) →
      (ToolRegistry.create_order_handler db store freshOrderId args sid?).1.success = false ∧
      (ToolRegistry.create_order_handler db store freshOrderId args sid?).2 = db) ∧
    ((∃ it ∈ args.items, DatabaseService.get_product_by_name db it.product_name = none) →
      (ToolRegistry.create_order_handler db store freshOrderId args sid?).1.success = false ∧
      (ToolRegistry.create_order_handler db store freshOrderId args sid?).2 = db) ∧
    (∀ d, args.delivery_date = some d → d < db.today →
      (ToolRegistry.create_order_handler db store freshOrderId args sid?).1.success = false ∧
      (ToolRegistry.create_order_handler db store freshOrderId args sid?).2 = db) := by
  have hfx := create_order_fail_nowrite db store freshOrderId args sid?
  have hsf := create_order_success_facts db store freshOrderId args sid?
  have key : ¬ ((∃ sid s, sid? = some sid ∧ store sid = some s ∧ s.registered = true) ∧
      (∀ it ∈ args.items, ¬ DatabaseService.get_product_by_name db it.product_name = none) ∧
      (∀ d, args.delivery_date = some d → ¬ d < db.today)) →
      (ToolRegistry.create_order_handler db store freshOrderId args sid?).1.success = false ∧
      (ToolRegistry.create_order_handler db store freshOrderId args sid?).2 = db := by
    intro hP
    rcases Bool.eq_false_or_eq_true
        (ToolRegistry.create_order_handler db store freshOrderId args sid?).1.success
      with ht | hf
    · exact absurd (hsf ht) hP
    · exact ⟨hf, hfx hf⟩
  refine ⟨?_, ?_, ?_⟩
  · rintro (hnone | ⟨sid, hsid, hst⟩)
    · apply key
      rintro ⟨⟨sid, sxx, hsid, -, -⟩, -, -⟩
      rw [hnone] at hsid
      exact Option.noConfusion hsid
    · apply key
      rintro ⟨⟨sid2, s2, hsid2, hstore2, hreg2⟩, -, -⟩
      rw [hsid] at hsid2
      injection hsid2 with he
      subst he
      rcases hst with hn | ⟨s3, hs3, hreg3⟩
      · rw [hn] at hstore2
        exact Option.noConfusion hstore2
      · rw [hs3] at hstore2
        injection hstore2 with he2
        subst he2
        rw [hreg2] at hreg3
        exact Bool.noConfusion hreg3
  · rintro ⟨it, hit, hni⟩
    apply key
    rintro ⟨-, hres, -⟩
    exact (hres it hit) hni
  · intro d hd hlt
    apply key
    rintro ⟨-, -, hdates⟩
    exact (hdates d hd) hlt

/-- C3 witness: concrete rejections — an unregistered session, an
unresolvable product, and a delivery date in the past — each failing
with the store left untouched. -/
theorem create_order_rejected_no_side_effects_witness :
    ((ToolRegistry.create_order_handler orderCexDB orderCexStore "o1"
        ⟨[⟨"Tomato", 2⟩], some 1, "Addis"⟩ (some "u")).1.success = false ∧
      (ToolRegistry.create_order_handler orderCexDB orderCexStore "o1"
        ⟨[⟨"Tomato", 2⟩], some 1, "Addis"⟩ (some "u")).2 = orderCexDB) ∧
    ((ToolRegistry.create_order_handler orderCexDB orderCexStore "o1"
        ⟨[⟨"Durian", 2⟩], some 1, "Addis"⟩ (some "c")).1.success = false ∧
      (ToolRegistry.create_order_handler orderCexDB orderCexStore "o1"
        ⟨[⟨"Durian", 2⟩], some 1, "Addis"⟩ (some "c")).2 = orderCexDB) ∧
    ((ToolRegistry.create_order_handler orderCexDB orderCexStore "o1"
        ⟨[⟨"Tomato", 2⟩], some (-1), "Addis"⟩ (some "c")).1.success = false ∧
      (ToolRegistry.create_order_handler orderCexDB orderCexStore "o1"
        ⟨[⟨"Tomato", 2⟩], some (-1), "Addis"⟩ (some "c")).2 = orderCexDB) := by
  refine ⟨?_, ?_, ?_⟩
  · exact (create_order_rejected_no_side_effects orderCexDB orderCexStore "o1"
      ⟨[⟨"Tomato", 2⟩], some 1, "Addis"⟩ (some "u")).1
      (Or.inr ⟨"u", rfl, Or.inr ⟨_, rfl, rfl⟩⟩)
  · exact (create_order_rejected_no_side_effects orderCexDB orderCexStore "o1"
      ⟨[⟨"Durian", 2⟩], some 1, "Addis"⟩ (some "c")).2.1
      ⟨⟨"Durian", 2⟩, by simp, by decide⟩
  · exact (create_order_rejected_no_side_effects orderCexDB orderCexStore "o1"
      ⟨[⟨"Tomato", 2⟩], some (-1), "Addis"⟩ (some "c")).2.2
      (-1) rfl (by decide)

/-- C2 (code behavior at the failing input): for a session id with no
stored session, `process_message` crashes with the AttributeError
instead of transparently creating a usable session — `create_session()`
stores its record under a fresh uuid, the original id is re-read and is
still absent, and `session.get("context")` dereferences None.  `hne`
rules out the negligible uuid collision. -/
theorem process_message_missing_session_crashes (env : FlowEnv) (store : Store)
    (freshId sid um : String) (habs : store sid = none) (hne : ¬ sid = freshId) :
    ConversationOrchestrator.process_message env store freshId sid um =
      .error "AttributeError: \x27NoneType\x27 object has no attribute \x27get\x27" := by
  simp only [ConversationOrchestrator.process_message, SessionManager.get_session,
    SessionManager.create_session, Store.put, habs, if_neg hne]

/-- C2 witness: the empty keyspace with distinct fresh id. -/
theorem process_message_missing_session_crashes_witness :
    ConversationOrchestrator.process_message
      ⟨fun _ _ _ => .text "", fun _ _ _ st => (ToolResult.ok .pnone "", st), 20, 0⟩
      (fun _ => none) "f" "s" "hello" =
      .error "AttributeError: \x27NoneType\x27 object has no attribute \x27get\x27" := by
  exact process_message_missing_session_crashes
    ⟨fun _ _ _ => .text "", fun _ _ _ st => (ToolResult.ok .pnone "", st), 20, 0⟩
    (fun _ => none) "f" "s" "hello" rfl (by decide)

/-- Under a model that answers every invocation with a tool call, each
loop iteration executes exactly one tool; the loop makes at most
`callIdx + fuel` LLM calls, executes between one (when fuel remains) and
`fuel` more tools, and the reply content is the message of the last
executed tool result (empty when none was executed). -/
theorem llmDirectFlowLoop_tool_only (env : FlowEnv) (sid : String) (session : Session)
    (halways : ∀ n msgs b, ∃ name args, env.llm n msgs b = .tool_call name args) :
    ∀ (fuel callIdx : Nat) (messages : List ChatMsg) (last : Option String)
      (store : Store) (trace : List ToolResult),
      last = trace.getLast?.map ToolResult.message →
      (llmDirectFlowLoop env sid session fuel callIdx messages last store trace).llm_calls ≤
          callIdx + fuel ∧
      trace.length ≤
        (llmDirectFlowLoop env sid session fuel callIdx messages last store trace).executed.length ∧
      (llmDirectFlowLoop env sid session fuel callIdx messages last store trace).executed.length ≤
          trace.length + fuel ∧
      (1 ≤ fuel → trace.length + 1 ≤
        (llmDirectFlowLoop env sid session fuel callIdx messages last store trace).executed.length) ∧
      ((llmDirectFlowLoop env sid session fuel callIdx messages last store trace).resp.rtype = "text" ∨
        (llmDirectFlowLoop env sid session fuel callIdx messages last store trace).resp.rtype = "image") ∧
      (llmDirectFlowLoop env sid session fuel callIdx messages last store trace).resp.content =
        (match (llmDirectFlowLoop env sid session fuel callIdx messages last store
            trace).executed.getLast? with
          | some tr => tr.message
          | none => "") := by
  intro fuel
  induction fuel with
  | zero =>
    intro callIdx messages last store trace hinv
    rcases hg : trace.getLast? with _ | tr
    · have hl : last = none := by rw [hinv, hg]; rfl
      subst hl
      refine ⟨?_, ?_, ?_, ?_, ?_, ?_⟩ <;> simp [llmDirectFlowLoop, hg]
    · have hl : last = some tr.message := by rw [hinv, hg]; rfl
      subst hl
      by_cases hm : tr.message = ""
      · refine ⟨?_, ?_, ?_, ?_, ?_, ?_⟩ <;>
          simp [llmDirectFlowLoop, hg, hm]
      · refine ⟨?_, ?_, ?_, ?_, ?_, ?_⟩ <;>
          simp [llmDirectFlowLoop, hg, hm]
  | succ fuel ih =>
    intro callIdx messages last store trace hinv
    obtain ⟨name, args, hllm⟩ := halways callIdx messages true
    rcases hu : (if name = "generate_product_image" then
        (match (env.toolExec trace.length name args store).1.data.dictGet "image_url" with
         | some (.pstr u) => if u ≠ "" then some u else none
         | _ => none)
      else none) with _ | url
    · have hrec := ih (callIdx + 1)
        (ConversationOrchestrator.build_messages
          ((SessionManager.get_session (env.toolExec trace.length name args store).2
            sid).getD session)
          ("Tool result (context):\n" ++
            (env.toolExec trace.length name args store).1.message ++
            "\n\nUse this context to answer the user\x27s last question concisely."))
        (some (env.toolExec trace.length name args store).1.message)
        (env.toolExec trace.length name args store).2
        (trace ++ [(env.toolExec trace.length name args store).1])
        (by simp)
      have hunf : llmDirectFlowLoop env sid session (fuel + 1) callIdx messages last
          store trace =
          llmDirectFlowLoop env sid session fuel (callIdx + 1)
            (ConversationOrchestrator.build_messages
              ((SessionManager.get_session (env.toolExec trace.length name args store).2
                sid).getD session)
              ("Tool result (context):\n" ++
                (env.toolExec trace.length name args store).1.message ++
                "\n\nUse this context to answer the user\x27s last question concisely."))
            (some (env.toolExec trace.length name args store).1.message)
            (env.toolExec trace.length name args store).2
            (trace ++ [(env.toolExec trace.length name args store).1]) := by
        rw [llmDirectFlowLoop, hllm]
        simp only []
        rw [hu]
      rw [hunf]
      obtain ⟨c1, c2, c3, c4, c5, c6⟩ := hrec
      refine ⟨by omega, ?_, ?_, ?_, c5, c6⟩
      · calc trace.length ≤ (trace ++ [(env.toolExec trace.length name args store).1]).length := by
              simp
          _ ≤ _ := c2
      · have := c3
        simp only [List.length_append, List.length_cons, List.length_nil] at this
        omega
      · intro _
        have := c2
        simp only [List.length_append, List.length_cons, List.length_nil] at this
        omega
    · have hunf : llmDirectFlowLoop env sid session (fuel + 1) callIdx messages last
          store trace =
          ⟨⟨"image", (env.toolExec trace.length name args store).1.message, some url⟩,
            SessionManager.add_message env.max_history
              (env.toolExec trace.length name args store).2 sid "assistant"
              (env.toolExec trace.length name args store).1.message env.now,
            callIdx + 1, trace ++ [(env.toolExec trace.length name args store).1]⟩ := by
        rw [llmDirectFlowLoop, hllm]
        simp only []
        rw [hu]
      rw [hunf]
      refine ⟨by dsimp only; omega, by simp, by simp, ?_, Or.inr rfl, ?_⟩
      · intro _
        simp
      · simp [List.getLast?_concat]

/-- C4: when the model responds with a tool call on every invocation,
`_llm_direct_flow` terminates within the fixed bound of 3 iterations
(at most 3 LLM calls, between 1 and 3 tool executions), never crashes
(the reply is a well-formed text or image response), and its content is
the last executed tool result's message — the otherwise-empty fallback
is unreachable since a tool always executed. -/
theorem llm_direct_flow_terminates_with_last_tool_message (env : FlowEnv)
    (store : Store) (sid : String) (session : Session) (um : String)
    (halways : ∀ n msgs b, ∃ name args, env.llm n msgs b = .tool_call name args) :
    (ConversationOrchestrator.llm_direct_flow env store sid session um).llm_calls ≤ 3 ∧
    1 ≤ (ConversationOrchestrator.llm_direct_flow env store sid session um).executed.length ∧
    (ConversationOrchestrator.llm_direct_flow env store sid session um).executed.length ≤ 3 ∧
    ((ConversationOrchestrator.llm_direct_flow env store sid session um).resp.rtype = "text" ∨
      (ConversationOrchestrator.llm_direct_flow env store sid session um).resp.rtype = "image") ∧
    (ConversationOrchestrator.llm_direct_flow env store sid session um).resp.content =
      (match (ConversationOrchestrator.llm_direct_flow env store sid session
          um).executed.getLast? with
        | some tr => tr.message
        | none => "") := by
  obtain ⟨c1, c2, c3, c4, c5, c6⟩ := llmDirectFlowLoop_tool_only env sid session halways
    3 0 (ConversationOrchestrator.build_messages session um) none store [] rfl
  unfold ConversationOrchestrator.llm_direct_flow
  refine ⟨by simpa using c1, ?_, by simpa using c3, c5, c6⟩
  simpa using c4 (by norm_num)

/-- C4 witness: a model that always requests `search_products`; the flow
makes 3 calls, executes 3 tools, and replies with the third tool
message. -/
theorem llm_direct_flow_terminates_witness :
    (ConversationOrchestrator.llm_direct_flow
      ⟨fun _ _ _ => .tool_call "search_products" (.pdict [("query", .pstr "tomato")]),
       fun k _ _ st => (ToolResult.ok (.plist []) ("msg" ++ toString k), st), 20, 0⟩
      (fun _ => none) "s" {} "show me tomatoes").llm_calls ≤ 3 ∧
    1 ≤ (ConversationOrchestrator.llm_direct_flow
      ⟨fun _ _ _ => .tool_call "search_products" (.pdict [("query", .pstr "tomato")]),
       fun k _ _ st => (ToolResult.ok (.plist []) ("msg" ++ toString k), st), 20, 0⟩
      (fun _ => none) "s" {} "show me tomatoes").executed.length := by
  obtain ⟨c1, c2, _⟩ := llm_direct_flow_terminates_with_last_tool_message
    ⟨fun _ _ _ => .tool_call "search_products" (.pdict [("query", .pstr "tomato")]),
     fun k _ _ st => (ToolResult.ok (.plist []) ("msg" ++ toString k), st), 20, 0⟩
    (fun _ => none) "s" {} "show me tomatoes"
    (fun n msgs b => ⟨"search_products", .pdict [("query", .pstr "tomato")], rfl⟩)
  exact ⟨c1, c2⟩
